import Mathlib

/-!
# taapi-go: response models, request builders, enumerations, response handling

A shallow embedding of `response.go`, `builders.go`, `errors.go`,
`exchange.go`, `interval.go`, `indicator.go` and the response handling of
`client.go`.

Conventions of the embedding.

* A byte slice handed to `encoding/json` is a `Payload`: text that is not
  syntactically valid JSON, the text of one JSON value whose number literals
  all fit a `float64`, or the text of one JSON value with a number literal
  outside the range of `float64` (such as `1e999`).  The codec itself (lexing,
  escaping, number syntax) is the standard library and is not re-implemented:
  a payload carries the value tree the codec reads.  A number is the `float64`
  the codec produces; it is carried as its exact rational value and never
  computed with.  For a literal outside the range the codec records an
  `UnmarshalTypeError`, leaves nil in its place and goes on decoding, so a
  payload with such a literal carries the tree with `null` at those places.
* A Go `interface{}` holding decoded JSON is a `JSON` tree; JSON `null` is the
  nil interface.
* A Go `map[string]interface{}` is a `GoMap`: the nil map, or a finite list of
  entries with pairwise distinct keys.
* Pointers to responses are the responses themselves.
* A Go value stored in a request payload (a string, a number, a slice, a map)
  is carried as the JSON value it marshals to.
* The network is an argument: the builders take the client's `doGet` or
  `doPost`, and these take the HTTP round trip; `doGet` also takes the URL
  functions of the standard library.  `int` has 64 bits.
-/

namespace Taapi

/-- JSON values, as the generic decoder of `encoding/json` produces them:
nil, bool, float64, string, `[]interface{}`, and the members of an object in
the order of the text. -/
inductive JSON where
  | null : JSON
  | bool (b : Bool) : JSON
  | num (f : ℚ) : JSON
  | str (s : String) : JSON
  | arr (xs : List JSON) : JSON
  | obj (members : List (String × JSON)) : JSON

namespace JSON

/-- The value of an object under a key, as the codec reads the text: that of
the last member with the key (`none` when there is none, or for a value that
is not an object). -/
def field (j : JSON) (k : String) : Option JSON :=
  match j with
  | obj ms => ms.reverse.lookup k
  | _ => none

/-- The comma-ok type assertion `v.(string)` on the result of a map index:
the string when the key is present and holds a JSON string, else `none`
(a missing key indexes to the nil interface, which is no string). -/
def asString : Option JSON → Option String
  | some (str s) => some s
  | _ => none

/-- Whether a looked-up value is a JSON string. -/
def isString (v : Option JSON) : Bool :=
  (asString v).isSome

/-- Whether a JSON value is an object. -/
def isObject : JSON → Bool
  | obj _ => true
  | _ => false

/-- Whether a JSON value is `null`. -/
def isNull : JSON → Bool
  | null => true
  | _ => false

/-- Whether a JSON value is an array. -/
def isArray : JSON → Bool
  | arr _ => true
  | _ => false

end JSON

/-- A byte slice given to the JSON codec: text that is not valid JSON
(`malformed`); the text of a JSON value all of whose number literals are
within the range of `float64` (`text`); or the text of a JSON value with at
least one number literal outside that range (`outOfRange`), such as
`{"value":1e999}`, given by the tree the codec leaves, where each such literal
has become nil (`null`): `{"value":1e999}` is `outOfRange (obj [("value", null)])`. -/
inductive Payload where
  | malformed : Payload
  | text (j : JSON) : Payload
  | outOfRange (left : JSON) : Payload

/-- The value a payload has under a key once decoded into a Go map: that of
its JSON object, `none` when the payload is not the text of a JSON object. -/
def Payload.field (p : Payload) (k : String) : Option JSON :=
  match p with
  | .malformed => none
  | .text j => j.field k
  | .outOfRange j => j.field k

/-- Whether a payload is the text of a well-formed JSON object, whatever its
members. -/
def Payload.isObject : Payload → Bool
  | .text (.obj _) => true
  | .outOfRange (.obj _) => true
  | _ => false

/-- The two errors `json.Unmarshal` reports: a syntax error, or a value whose
JSON kind does not fit the Go type it is decoded into (`*UnmarshalTypeError`,
which is also the error for a number literal outside the range of `float64`). -/
inductive JsonError where
  | syntaxError : JsonError
  | unmarshalTypeError : JsonError
  deriving DecidableEq, Repr

/-- Go `map[string]interface{}`: `nil` is the nil map, `mk` a map with its
entries (distinct keys). -/
inductive GoMap where
  | nil : GoMap
  | mk (entries : List (String × JSON))
      (nodup : (entries.map Prod.fst).Nodup) : GoMap

namespace GoMap

/-- The entries a `range` over the map visits (none for the nil map). -/
def entries : GoMap → List (String × JSON)
  | nil => []
  | mk es _ => es

theorem entries_nodup (m : GoMap) : (m.entries.map Prod.fst).Nodup := by
  cases m with
  | nil => exact List.nodup_nil
  | mk es h => exact h

/-- The expression `make(map[string]interface{})`. -/
def make : GoMap := mk [] List.nodup_nil

/-- The comma-ok index expression `v, ok := m[k]` (`none` when `ok` is false);
reading a nil map finds nothing. -/
def get (m : GoMap) (k : String) : Option JSON :=
  m.entries.lookup k

theorem nodup_keys_filter (es : List (String × JSON)) (p : String × JSON → Bool)
    (h : (es.map Prod.fst).Nodup) : ((es.filter p).map Prod.fst).Nodup :=
  h.sublist ((List.filter_sublist es).map Prod.fst)

theorem key_not_mem_filter (es : List (String × JSON)) (k : String) :
    k ∉ (es.filter (fun e => e.1 != k)).map Prod.fst := by
  intro h
  obtain ⟨e, he, hk⟩ := List.mem_map.1 h
  have := (List.mem_filter.1 he).2
  simp [hk] at this

/-- The statement `delete(m, k)`; a no-op on the nil map. -/
def delete : GoMap → String → GoMap
  | nil, _ => nil
  | mk es h, k => mk (es.filter (fun e => e.1 != k)) (nodup_keys_filter es _ h)

/-- The assignment `m[k] = v` on a map that was made (assigning into the nil
map panics in Go; no modelled path does so).  The entry replaces the one the
key had, if any. -/
def set (m : GoMap) (k : String) (v : JSON) : GoMap :=
  mk (m.entries.filter (fun e => e.1 != k) ++ [(k, v)])
    (by
      rw [List.map_append, List.nodup_append]
      refine ⟨nodup_keys_filter _ _ m.entries_nodup, by simp, ?_⟩
      intro a ha hb
      have hak : a = k := by simpa using hb
      exact key_not_mem_filter _ _ (hak ▸ ha))

/-- The loop `for k, v := range src { dst[k] = v }`. -/
def merge (dst src : GoMap) : GoMap :=
  src.entries.foldl (fun acc e => acc.set e.1 e.2) dst

/-- The map the decoder builds from the members of a JSON object: it makes a
map and assigns the members in the order of the text. -/
def ofMembers (ms : List (String × JSON)) : GoMap :=
  ms.foldl (fun acc e => acc.set e.1 e.2) make

end GoMap

/-- `json.Unmarshal(data, &raw)` for a fresh `var raw map[string]interface{}`:
an object gives its map, `null` leaves the nil map, anything else is an error,
and so is a text with a number literal outside the range of `float64`
(every number of an object is converted, and a value of another kind than an
object or `null` does not fit the map). -/
def jsonUnmarshalMap : Payload → Except JsonError GoMap
  | .malformed => .error .syntaxError
  | .text (.obj ms) => .ok (GoMap.ofMembers ms)
  | .text .null => .ok .nil
  | .text _ => .error .unmarshalTypeError
  | .outOfRange _ => .error .unmarshalTypeError

/-- `json.Marshal(m)` for a map of JSON values: `null` for the nil map, else
the object of its entries.  It cannot fail on such values. -/
def jsonMarshalMap : GoMap → Except JsonError Payload
  | .nil => .ok (.text .null)
  | .mk es _ => .ok (.text (.obj es))

/-- The struct `IndicatorResponse` of response.go. -/
structure IndicatorResponse where
  Indicator : String := ""
  ID : String := ""
  Data : GoMap := .nil

namespace IndicatorResponse

/-- Method `UnmarshalJSON` of response.go lines 13-31, on receiver `r`. -/
def UnmarshalJSON (r : IndicatorResponse) (data : Payload) :
    Except JsonError IndicatorResponse :=
  match jsonUnmarshalMap data with
  | .error err => .error err
  | .ok raw =>
    let (r, raw) :=
      match JSON.asString (raw.get "indicator") with
      | some indicator => ({ r with Indicator := indicator }, raw.delete "indicator")
      | none => (r, raw)
    let (r, raw) :=
      match JSON.asString (raw.get "id") with
      | some id => ({ r with ID := id }, raw.delete "id")
      | none => (r, raw)
    .ok { r with Data := raw }

/-- Method `MarshalJSON` of response.go lines 33-50. -/
def MarshalJSON (r : IndicatorResponse) : Except JsonError Payload :=
  let result := GoMap.make
  let result := if r.Indicator != "" then result.set "indicator" (.str r.Indicator) else result
  let result := if r.ID != "" then result.set "id" (.str r.ID) else result
  let result := result.merge r.Data
  jsonMarshalMap result

/-- What the `interface{}` returned by `GetValue` holds: an entry of the data
bag, or the data bag (a `map[string]interface{}`) itself. -/
inductive Any where
  | value (v : JSON) : Any
  | dataMap (m : GoMap) : Any

/-- Method `GetValue` of response.go lines 53-58. -/
def GetValue (r : IndicatorResponse) : Any :=
  match r.Data.get "value" with
  | some val => .value val
  | none => .dataMap r.Data

/-- Method `GetFloat` of response.go lines 61-68. -/
def GetFloat (r : IndicatorResponse) (key : String) : ℚ × Bool :=
  match r.Data.get key with
  | some val =>
    match val with
    | .num f => (f, true)
    | _ => (0, false)
  | none => (0, false)

/-- Method `GetString` of response.go lines 71-78. -/
def GetString (r : IndicatorResponse) (key : String) : String × Bool :=
  match r.Data.get key with
  | some val =>
    match val with
    | .str s => (s, true)
    | _ => ("", false)
  | none => ("", false)

/-- Method `Get` of response.go lines 81-84: the value (the nil interface,
`null`, when the key is missing) and the comma-ok flag. -/
def Get (r : IndicatorResponse) (key : String) : JSON × Bool :=
  match r.Data.get key with
  | some val => (val, true)
  | none => (.null, false)

/-- Method `Has` of response.go lines 87-90. -/
def Has (r : IndicatorResponse) (key : String) : Bool :=
  match r.Data.get key with
  | some _ => true
  | none => false

end IndicatorResponse

/-- The elements of an array decoded into `[]map[string]interface{}`: each
must be an object or `null`; the error reported is the first one met. -/
def jsonUnmarshalElems : List JSON → Except JsonError (List GoMap)
  | [] => .ok []
  | x :: xs =>
    match jsonUnmarshalMap (.text x) with
    | .error err => .error err
    | .ok m =>
      match jsonUnmarshalElems xs with
      | .error err => .error err
      | .ok ms => .ok (m :: ms)

/-- `json.Unmarshal(data, &raw)` for a fresh
`var raw []map[string]interface{}`: an array whose elements are objects or
`null` gives the slice of their maps, `null` gives the nil slice, and any
other value, or any other element, is an error, and so is a text with a
number literal outside the range of `float64`. -/
def jsonUnmarshalMaps : Payload → Except JsonError (List GoMap)
  | .malformed => .error .syntaxError
  | .text (.arr xs) => jsonUnmarshalElems xs
  | .text .null => .ok []
  | .text _ => .error .unmarshalTypeError
  | .outOfRange _ => .error .unmarshalTypeError

/-- The struct `BulkResponse` of response.go. -/
structure BulkResponse where
  Responses : List IndicatorResponse := []

namespace BulkResponse

/-- One turn of the loop of `UnmarshalJSON`, response.go lines 105-117:
`acc` is `b.Responses` so far. -/
def unmarshalItem (acc : List IndicatorResponse) (item : GoMap) : List IndicatorResponse :=
  match jsonMarshalMap item with
  | .error _ => acc
  | .ok itemData =>
    match IndicatorResponse.UnmarshalJSON {} itemData with
    | .error _ => acc
    | .ok response => acc ++ [response]

/-- Method `UnmarshalJSON` of response.go lines 98-120. -/
def UnmarshalJSON (_b : BulkResponse) (data : Payload) : Except JsonError BulkResponse :=
  match jsonUnmarshalMaps data with
  | .error err => .error err
  | .ok raw => .ok { Responses := raw.foldl unmarshalItem [] }

/-- Method `FindByID` of response.go lines 123-130 (`none` is the nil pointer). -/
def FindByID (b : BulkResponse) (id : String) : Option IndicatorResponse :=
  go b.Responses
where
  go : List IndicatorResponse → Option IndicatorResponse
    | [] => none
    | response :: rest => if response.ID = id then some response else go rest

/-- Method `FilterByIndicator` of response.go lines 133-141. -/
def FilterByIndicator (b : BulkResponse) (indicator : String) : List IndicatorResponse :=
  b.Responses.foldl
    (fun results response =>
      if response.Indicator = indicator then results ++ [response] else results) []

/-- Method `Count` of response.go lines 144-146. -/
def Count (b : BulkResponse) : Nat :=
  b.Responses.length

end BulkResponse

/-- An underlying error from a library (URL parsing, HTTP transport, reading a
body, the JSON codec), as stored in the field `Err`. -/
inductive Cause where
  | json (e : JsonError) : Cause
  | library (msg : String) : Cause
  deriving DecidableEq, Repr

/-- The struct `Error` of errors.go; `Err` is `none` for a nil `error`. -/
structure Error where
  Message : String
  StatusCode : Int := 0
  Response : GoMap := .nil
  Err : Option Cause := none

/-- Function `InvalidArgumentError` of errors.go lines 30-34. -/
def InvalidArgumentError (message : String) : Error :=
  { Message := message }

/-- Function `APIError` of errors.go lines 37-43. -/
def APIError (statusCode : Int) (message : String) (response : GoMap) : Error :=
  { Message := message, StatusCode := statusCode, Response := response }

/-- Function `NetworkError` of errors.go lines 46-51. -/
def NetworkError (message : String) (err : Cause) : Error :=
  { Message := "network error: " ++ message, Err := some err }

/-- The struct `RateLimitError` of errors.go. -/
structure RateLimitError where
  Message : String
  StatusCode : Int
  Response : GoMap
  RetryAfter : Int

/-- The constant `http.StatusTooManyRequests`. -/
def http.StatusTooManyRequests : Int := 429

/-- Function `NewRateLimitError` of errors.go lines 67-74. -/
def NewRateLimitError (message : String) (retryAfter : Int) (response : GoMap) :
    RateLimitError :=
  { Message := message, StatusCode := http.StatusTooManyRequests,
    Response := response, RetryAfter := retryAfter }

/-- The values of the interface type `error` that the library returns: a
`*Error`, a `*RateLimitError`, or an error of another dynamic type (made by
`fmt.Errorf`). -/
inductive GoError where
  | taapi (e : Error) : GoError
  | rateLimit (e : RateLimitError) : GoError
  | other (msg : String) : GoError

/-- The struct `DirectBuilder` of builders.go.  The field `client` is not part
of the state: its method `doGet` is an argument of `Get`. -/
structure DirectBuilder where
  exchange : String := ""
  symbol : String := ""
  interval : String := ""
  indicator : String := ""
  params : GoMap := .nil

namespace DirectBuilder

/-- Method `validate` of builders.go lines 87-101 (`none` is the nil error). -/
def validate (b : DirectBuilder) : Option Error :=
  if b.exchange = "" then
    some (InvalidArgumentError "exchange is required")
  else if b.symbol = "" then
    some (InvalidArgumentError "symbol is required")
  else if b.interval = "" then
    some (InvalidArgumentError "interval is required")
  else if b.indicator = "" then
    some (InvalidArgumentError "indicator is required")
  else
    none

/-- Method `Get` of builders.go lines 70-85; `doGet` is `b.client.doGet`. -/
def Get (doGet : String → GoMap → Except GoError IndicatorResponse) (b : DirectBuilder) :
    Except GoError IndicatorResponse :=
  match b.validate with
  | some err => .error (.taapi err)
  | none =>
    let params := GoMap.make
    let params := params.set "exchange" (.str b.exchange)
    let params := params.set "symbol" (.str b.symbol)
    let params := params.set "interval" (.str b.interval)
    let params := params.merge b.params
    doGet ("/" ++ b.indicator) params

end DirectBuilder

/-! ## Enumerations (exchange.go, interval.go, indicator.go) -/

/-- The type `Exchange` of exchange.go: a named string type. -/
structure Exchange where
  token : String
  deriving DecidableEq, Repr

def ExchangeBinance : Exchange := ⟨"binance"⟩
def ExchangeBinanceUS : Exchange := ⟨"binanceus"⟩
def ExchangeBinanceUSDM : Exchange := ⟨"binanceusdm"⟩
def ExchangeBitfinex : Exchange := ⟨"bitfinex"⟩
def ExchangeBitget : Exchange := ⟨"bitget"⟩
def ExchangeBitmex : Exchange := ⟨"bitmex"⟩
def ExchangeBitstamp : Exchange := ⟨"bitstamp"⟩
def ExchangeBybit : Exchange := ⟨"bybit"⟩
def ExchangeCoinbase : Exchange := ⟨"coinbase"⟩
def ExchangeCryptoCom : Exchange := ⟨"cryptocom"⟩
def ExchangeGateIO : Exchange := ⟨"gateio"⟩
def ExchangeHuobi : Exchange := ⟨"huobi"⟩
def ExchangeKraken : Exchange := ⟨"kraken"⟩
def ExchangeKucoin : Exchange := ⟨"kucoin"⟩
def ExchangeMEXC : Exchange := ⟨"mexc"⟩
def ExchangeOKX : Exchange := ⟨"okx"⟩
def ExchangePhemex : Exchange := ⟨"phemex"⟩
def ExchangePoloniex : Exchange := ⟨"poloniex"⟩

/-- Method `Exchange.String` of exchange.go lines 28-30. -/
def Exchange.String (e : Exchange) : String :=
  e.token

/-- Method `Exchange.IsValid` of exchange.go lines 33-44: a `switch` over the
eighteen constants. -/
def Exchange.IsValid (e : Exchange) : Bool :=
  e == ExchangeBinance || e == ExchangeBinanceUS || e == ExchangeBinanceUSDM ||
  e == ExchangeBitfinex || e == ExchangeBitget || e == ExchangeBitmex ||
  e == ExchangeBitstamp || e == ExchangeBybit || e == ExchangeCoinbase ||
  e == ExchangeCryptoCom || e == ExchangeGateIO || e == ExchangeHuobi ||
  e == ExchangeKraken || e == ExchangeKucoin || e == ExchangeMEXC ||
  e == ExchangeOKX || e == ExchangePhemex || e == ExchangePoloniex

/-- The type `Interval` of interval.go: a named string type. -/
structure Interval where
  token : String
  deriving DecidableEq, Repr

def Interval1m : Interval := ⟨"1m"⟩
def Interval5m : Interval := ⟨"5m"⟩
def Interval15m : Interval := ⟨"15m"⟩
def Interval30m : Interval := ⟨"30m"⟩
def Interval1h : Interval := ⟨"1h"⟩
def Interval2h : Interval := ⟨"2h"⟩
def Interval4h : Interval := ⟨"4h"⟩
def Interval12h : Interval := ⟨"12h"⟩
def Interval1d : Interval := ⟨"1d"⟩
def Interval1w : Interval := ⟨"1w"⟩

/-- Method `Interval.String` of interval.go lines 22-24. -/
def Interval.String (i : Interval) : String :=
  i.token

/-- Method `Interval.IsValid` of interval.go lines 27-35. -/
def Interval.IsValid (i : Interval) : Bool :=
  i == Interval1m || i == Interval5m || i == Interval15m || i == Interval30m ||
  i == Interval1h || i == Interval2h || i == Interval4h || i == Interval12h ||
  i == Interval1d || i == Interval1w

/-- The constant `time.Nanosecond`: a `time.Duration` is an `int64` count of
nanoseconds. -/
def time.Nanosecond : Int := 1

/-- The constant `time.Minute`, sixty seconds of a thousand milliseconds of a
thousand microseconds of a thousand nanoseconds. -/
def time.Minute : Int := 60 * (1000 * (1000 * (1000 * time.Nanosecond)))

/-- The constant `time.Hour`. -/
def time.Hour : Int := 60 * time.Minute

/-- Method `Interval.Duration` of interval.go lines 38-63. -/
def Interval.Duration (i : Interval) : Int :=
  if i = Interval1m then time.Minute
  else if i = Interval5m then 5 * time.Minute
  else if i = Interval15m then 15 * time.Minute
  else if i = Interval30m then 30 * time.Minute
  else if i = Interval1h then time.Hour
  else if i = Interval2h then 2 * time.Hour
  else if i = Interval4h then 4 * time.Hour
  else if i = Interval12h then 12 * time.Hour
  else if i = Interval1d then 24 * time.Hour
  else if i = Interval1w then 7 * 24 * time.Hour
  else 0

/-- The type `Indicator` of indicator.go: a named string type. -/
structure Indicator where
  token : String
  deriving DecidableEq, Repr

def IndicatorRSI : Indicator := ⟨"rsi"⟩
def IndicatorMACD : Indicator := ⟨"macd"⟩
def IndicatorEMA : Indicator := ⟨"ema"⟩
def IndicatorSMA : Indicator := ⟨"sma"⟩
def IndicatorBBANDS : Indicator := ⟨"bbands"⟩
def IndicatorSTOCH : Indicator := ⟨"stoch"⟩
def IndicatorSTOCHRSI : Indicator := ⟨"stochrsi"⟩
def IndicatorATR : Indicator := ⟨"atr"⟩
def IndicatorADX : Indicator := ⟨"adx"⟩
def IndicatorCCI : Indicator := ⟨"cci"⟩
def IndicatorAROON : Indicator := ⟨"aroon"⟩
def IndicatorMFI : Indicator := ⟨"mfi"⟩
def IndicatorOBV : Indicator := ⟨"obv"⟩
def IndicatorSAR : Indicator := ⟨"sar"⟩
def IndicatorSUPERTREND : Indicator := ⟨"supertrend"⟩
def IndicatorICHIMOKU : Indicator := ⟨"ichimoku"⟩
def IndicatorVWAP : Indicator := ⟨"vwap"⟩
def IndicatorHMA : Indicator := ⟨"hma"⟩
def IndicatorWMA : Indicator := ⟨"wma"⟩
def IndicatorDEMA : Indicator := ⟨"dema"⟩
def IndicatorTEMA : Indicator := ⟨"tema"⟩
def IndicatorWILLIAMS : Indicator := ⟨"williams"⟩
def IndicatorUO : Indicator := ⟨"uo"⟩
def IndicatorROC : Indicator := ⟨"roc"⟩
def IndicatorBBP : Indicator := ⟨"bbp"⟩
def IndicatorAO : Indicator := ⟨"ao"⟩
def IndicatorCMF : Indicator := ⟨"cmf"⟩
def IndicatorKELTNER : Indicator := ⟨"keltner"⟩
def IndicatorDONCHIAN : Indicator := ⟨"donchian"⟩
def IndicatorPIVOT : Indicator := ⟨"pivot"⟩
def IndicatorFIBONACCI : Indicator := ⟨"fibonacci"⟩
def IndicatorVOLUME : Indicator := ⟨"volume"⟩
def IndicatorCANDLE : Indicator := ⟨"candle"⟩

/-- Method `Indicator.String` of indicator.go lines 43-45. -/
def Indicator.String (i : Indicator) : String :=
  i.token

/-- Method `Indicator.IsValid` of indicator.go lines 48-62. -/
def Indicator.IsValid (i : Indicator) : Bool :=
  i == IndicatorRSI || i == IndicatorMACD || i == IndicatorEMA || i == IndicatorSMA ||
  i == IndicatorBBANDS || i == IndicatorSTOCH || i == IndicatorSTOCHRSI || i == IndicatorATR ||
  i == IndicatorADX || i == IndicatorCCI || i == IndicatorAROON || i == IndicatorMFI ||
  i == IndicatorOBV || i == IndicatorSAR || i == IndicatorSUPERTREND || i == IndicatorICHIMOKU ||
  i == IndicatorVWAP || i == IndicatorHMA || i == IndicatorWMA || i == IndicatorDEMA ||
  i == IndicatorTEMA || i == IndicatorWILLIAMS || i == IndicatorUO || i == IndicatorROC ||
  i == IndicatorBBP || i == IndicatorAO || i == IndicatorCMF || i == IndicatorKELTNER ||
  i == IndicatorDONCHIAN || i == IndicatorPIVOT || i == IndicatorFIBONACCI || i == IndicatorVOLUME ||
  i == IndicatorCANDLE

/-- The struct `Candle` of response.go: `Timestamp` is an `int64`, the other
fields are `float64`. -/
structure Candle where
  Timestamp : Int
  Open : ℚ
  High : ℚ
  Low : ℚ
  Close : ℚ
  Volume : ℚ

/-- Method `Candle.ToArray` of response.go lines 159-161; each element is
carried as the JSON number it marshals to. -/
def Candle.ToArray (c : Candle) : List JSON :=
  [.num c.Timestamp, .num c.Open, .num c.High, .num c.Low, .num c.Close, .num c.Volume]

/-! ## Transport: response handling (client.go) -/

/-- The two errors of package strconv: `ErrSyntax` and `ErrRange`. -/
inductive NumError where
  | errSyntax : NumError
  | errRange : NumError
  deriving DecidableEq, Repr

/-- The digit loop of `strconv.ParseUint(s, 10, 64)`, with `n` the value read so
far.  A character that is not a decimal digit is a syntax error, with value 0.
Before a digit is added, `n >= cutoff` (with `cutoff = maxUint64/10 + 1`) is a
range error, and so is a sum above `maxUint64`; both return `maxUint64` at
once, without reading the rest of the string. -/
def parseUintLoop : List Char → Nat → Nat × Option NumError
  | [], n => (n, none)
  | c :: cs, n =>
    if !c.isDigit then (0, some .errSyntax)
    else if n ≥ (2 ^ 64 - 1) / 10 + 1 then (2 ^ 64 - 1, some .errRange)
    else if 10 * n + (c.toNat - 48) > 2 ^ 64 - 1 then (2 ^ 64 - 1, some .errRange)
    else parseUintLoop cs (10 * n + (c.toNat - 48))

/-- The function `strconv.ParseUint(s, 10, 64)`: the value it returns and its
error (`none` for nil).  The empty string is a syntax error. -/
def strconvParseUint (cs : List Char) : Nat × Option NumError :=
  if cs.isEmpty then (0, some .errSyntax) else parseUintLoop cs 0

/-- The part of `strconv.ParseInt(s, 10, 0)` after the sign is read, on a
64-bit platform, with the flag `err == nil`: a syntax error of `ParseUint`
returns 0; otherwise (also after a range error of `ParseUint`) a value outside
the range of `int64` is replaced by the nearest bound and reported as a range
error. -/
def clampInt (neg : Bool) (digits : List Char) : Int × Bool :=
  match strconvParseUint digits with
  | (_, some .errSyntax) => (0, false)
  | (un, _) =>
    if !neg && un ≥ 2 ^ 63 then ((2 : Int) ^ 63 - 1, false)
    else if neg && un > 2 ^ 63 then (-(2 : Int) ^ 63, false)
    else if neg then (-(un : Int), true)
    else ((un : Int), true)

/-- The function `strconv.Atoi` on a 64-bit platform: the value it returns and
whether its error is nil.  An optional sign, then decimal digits; a syntax
error returns 0, a range error returns the nearest bound of `int`.  (The fast
path of `Atoi` for strings shorter than 19 bytes returns what `ParseInt`
returns on them.) -/
def strconvAtoi (s : String) : Int × Bool :=
  match s.toList with
  | [] => (0, false)
  | '+' :: rest => clampInt false rest
  | '-' :: rest => clampInt true rest
  | cs => clampInt false cs

/-- What the client reads of an `*http.Response`: the status code,
`resp.Header.Get` (the empty string for an absent header), and the result of
`io.ReadAll(resp.Body)`. -/
structure HttpResponse where
  StatusCode : Int
  Header : String → String
  Body : Except Cause Payload

/-- The `interface{}` result of `handleResponse` and `doPost`: a
`*BulkResponse` or an `*IndicatorResponse`. -/
inductive Result where
  | indicator (r : IndicatorResponse) : Result
  | bulk (b : BulkResponse) : Result

/-- `json.Unmarshal(body, &errorData)` with its error dropped, for a fresh
`var errorData map[string]interface{}`: the map stays nil unless the body is
a JSON object.  For an object with a number literal outside the range of
`float64` the codec reports an error after it has filled the map, and the map
is kept: it holds nil under the keys of those literals. -/
def decodeErrorData (body : Payload) : GoMap :=
  match body with
  | .outOfRange (.obj ms) => GoMap.ofMembers ms
  | _ =>
    match jsonUnmarshalMap body with
    | .ok errorData => errorData
    | .error _ => .nil

/-- The struct `Client` of client.go; the `*http.Client` it holds is the
environment and is not part of the state. -/
structure Client where
  apiSecret : String
  baseURL : String

/-- Method `Client.handleResponse` of client.go lines 190-240 (the receiver is
not used). -/
def Client.handleResponse (_c : Client) (resp : HttpResponse) (isBulk : Bool) :
    Except GoError Result :=
  match resp.Body with
  | .error err => .error (.taapi (NetworkError "failed to read response body" err))
  | .ok body =>
    if resp.StatusCode = http.StatusTooManyRequests then
      let retryAfter : Int := 0
      let retryAfterStr := resp.Header "Retry-After"
      let retryAfter := if retryAfterStr != "" then (strconvAtoi retryAfterStr).1 else retryAfter
      let errorData := decodeErrorData body
      let message := "rate limit exceeded"
      let message :=
        match JSON.asString (errorData.get "error") with
        | some msg => msg
        | none => message
      .error (.rateLimit (NewRateLimitError message retryAfter errorData))
    else if resp.StatusCode ≥ 400 then
      let errorData := decodeErrorData body
      let message := "unknown API error"
      let message :=
        match JSON.asString (errorData.get "error") with
        | some msg => msg
        | none =>
          match JSON.asString (errorData.get "message") with
          | some msg => msg
          | none => message
      .error (.taapi (APIError resp.StatusCode message errorData))
    else if isBulk then
      match BulkResponse.UnmarshalJSON {} body with
      | .error _ => .error (.taapi (APIError 0 "failed to decode bulk response" .nil))
      | .ok bulkResp => .ok (.bulk bulkResp)
    else
      match IndicatorResponse.UnmarshalJSON {} body with
      | .error _ => .error (.taapi (APIError 0 "failed to decode response" .nil))
      | .ok indicatorResp => .ok (.indicator indicatorResp)

/-- The type `url.Values`, a `map[string][]string`, as an association list
read by its first entry for a key. -/
abbrev Values := List (String × List String)

/-- Method `url.Values.Set`: the key gets the single value, replacing what it
had. -/
def Values.Set (q : Values) (key value : String) : Values :=
  q.filter (fun e => e.1 != key) ++ [(key, [value])]

/-- Method `url.Values.Get`: the first value of the key, the empty string
when there is none. -/
def Values.Get (q : Values) (key : String) : String :=
  match q.lookup key with
  | some (value :: _) => value
  | _ => ""

/-- A parsed `*url.URL`: its query values (`u.Query()`) and the rest of it. -/
structure URL where
  location : String
  query : Values

/-- An outbound `*http.Request`, as the client builds it.  `Query` holds the
query values the client put into the URL of a GET request; a POST request
uses its URL string as given. -/
structure HttpRequest where
  Method : String
  URL : String
  Header : List (String × String)
  Body : Option Payload
  Query : Values := []

/-- The environment of a client: which URL strings `http.NewRequest` rejects
(with the error it gives), and what `c.httpClient.Do` answers to a request. -/
structure Network where
  urlError : String → Option Cause
  roundTrip : HttpRequest → Except Cause HttpResponse

/-- Method `Client.doPost` of client.go lines 161-187. -/
def Client.doPost (net : Network) (c : Client) (endpoint : String) (payload : GoMap) :
    Except GoError Result :=
  let urlStr := c.baseURL ++ endpoint
  let payload := payload.set "secret" (.str c.apiSecret)
  match jsonMarshalMap payload with
  | .error err => .error (.taapi (NetworkError "failed to marshal JSON" (.json err)))
  | .ok jsonData =>
    match net.urlError urlStr with
    | some err => .error (.taapi (NetworkError "failed to create request" err))
    | none =>
      let req : HttpRequest :=
        { Method := "POST", URL := urlStr,
          Header := [("Content-Type", "application/json"), ("Accept", "application/json")],
          Body := some jsonData }
      match net.roundTrip req with
      | .error err => .error (.taapi (NetworkError "request failed" err))
      | .ok resp =>
        let isBulk := endpoint == "/bulk"
        c.handleResponse resp isBulk

/-- The request `doPost` builds, client.go lines 162-177, or the error it
returns before anything is sent. -/
def Client.postRequest (net : Network) (c : Client) (endpoint : String) (payload : GoMap) :
    Except GoError HttpRequest :=
  let urlStr := c.baseURL ++ endpoint
  let payload := payload.set "secret" (.str c.apiSecret)
  match jsonMarshalMap payload with
  | .error err => .error (.taapi (NetworkError "failed to marshal JSON" (.json err)))
  | .ok jsonData =>
    match net.urlError urlStr with
    | some err => .error (.taapi (NetworkError "failed to create request" err))
    | none =>
      .ok { Method := "POST", URL := urlStr,
            Header := [("Content-Type", "application/json"), ("Accept", "application/json")],
            Body := some jsonData }

/-- The functions of the standard library that `doGet` calls and that are
taken as given: `url.Parse`, `(*url.URL).String` (after `RawQuery` was set to
the encoded query), and the text `fmt.Sprintf("%v", v)` gives for a value that
is a number, a slice or a map. -/
structure StdLib where
  urlParse : String → Except Cause URL
  urlString : URL → String
  sprintOther : JSON → String

/-- The call `fmt.Sprintf("%v", value)` on a value of a parameter bag: a
string is printed as it is, a bool as `true` or `false`, nil as `<nil>`. -/
def sprintV (lib : StdLib) : JSON → String
  | .str s => s
  | .bool true => "true"
  | .bool false => "false"
  | .null => "<nil>"
  | v => lib.sprintOther v

/-- The request `doGet` builds, client.go lines 118-139, or the error it
returns before anything is sent. -/
def Client.getRequest (lib : StdLib) (net : Network) (c : Client) (endpoint : String)
    (params : GoMap) : Except GoError HttpRequest :=
  let urlStr := c.baseURL ++ endpoint
  match lib.urlParse urlStr with
  | .error err => .error (.taapi (NetworkError "invalid URL" err))
  | .ok u =>
    let q := u.query
    let q := q.Set "secret" c.apiSecret
    let q := params.entries.foldl (fun q e => q.Set e.1 (sprintV lib e.2)) q
    let u := { u with query := q }
    match net.urlError (lib.urlString u) with
    | some err => .error (.taapi (NetworkError "failed to create request" err))
    | none =>
      .ok { Method := "GET", URL := lib.urlString u,
            Header := [("Accept", "application/json")], Body := none, Query := q }

/-- Method `Client.doGet` of client.go lines 117-158. -/
def Client.doGet (lib : StdLib) (net : Network) (c : Client) (endpoint : String)
    (params : GoMap) : Except GoError IndicatorResponse :=
  match c.getRequest lib net endpoint params with
  | .error err => .error err
  | .ok req =>
    match net.roundTrip req with
    | .error err => .error (.taapi (NetworkError "request failed" err))
    | .ok resp =>
      match c.handleResponse resp false with
      | .error err => .error err
      | .ok result =>
        match result with
        | .indicator indicatorResp => .ok indicatorResp
        | _ => .error (.taapi (APIError 0 "unexpected response type" .nil))

/-! ## Error helpers (errors.go) -/

/-- Method `Error.Unwrap` of errors.go lines 25-27 (`none` is the nil error). -/
def Error.Unwrap (e : Error) : Option Cause :=
  e.Err

/-- Function `IsRateLimitError` of errors.go lines 77-80: the type assertion
`err.(*RateLimitError)`; `none` is the nil error. -/
def IsRateLimitError (err : Option GoError) : Bool :=
  match err with
  | some (.rateLimit _) => true
  | _ => false

/-- Function `IsAPIError` of errors.go lines 83-86: the type assertion
`err.(*Error)`; `none` is the nil error. -/
def IsAPIError (err : Option GoError) : Bool :=
  match err with
  | some (.taapi _) => true
  | _ => false

/-! ## Builders for POST requests (builders.go) -/

/-- A `map[string]interface{}` stored as a value of a payload, carried as the
JSON value it marshals to. -/
def GoMap.toJSON : GoMap → JSON
  | .nil => .null
  | .mk es _ => .obj es

/-- The struct `ConstructBuilder` of builders.go. -/
structure ConstructBuilder where
  exchange : String := ""
  symbol : String := ""
  interval : String := ""
  indicators : List GoMap := []

/-- Method `Client.Construct` of client.go lines 98-105. -/
def Client.Construct (_c : Client) (exchange : Exchange) (symbol : String)
    (interval : Interval) : ConstructBuilder :=
  { exchange := exchange.String, symbol := symbol, interval := interval.String,
    indicators := [] }

namespace ConstructBuilder

/-- The local variable `indicatorData` of `AddIndicator`, builders.go lines
113-119: the map literal with the key `indicator`, then the entries of
`params` assigned into it. -/
def indicatorData (indicator : Indicator) (params : GoMap) : GoMap :=
  let indicatorData := GoMap.make.set "indicator" (.str indicator.String)
  indicatorData.merge params

/-- Method `AddIndicator` of builders.go lines 112-123. -/
def AddIndicator (b : ConstructBuilder) (indicator : Indicator) (params : GoMap) :
    ConstructBuilder :=
  { b with indicators := b.indicators ++ [indicatorData indicator params] }

/-- Method `ToMap` of builders.go lines 126-137. -/
def ToMap (b : ConstructBuilder) : Except Error GoMap :=
  if b.indicators.length = 0 then
    .error (InvalidArgumentError "at least one indicator is required")
  else
    .ok ((((GoMap.make.set "exchange" (.str b.exchange)).set "symbol" (.str b.symbol)).set
      "interval" (.str b.interval)).set "indicators" (.arr (b.indicators.map GoMap.toJSON)))

end ConstructBuilder

/-- The struct `BulkBuilder` of builders.go (without the field `client`, whose
method `doPost` is an argument of `Execute`). -/
structure BulkBuilder where
  constructs : List GoMap := []

/-- Method `Client.Bulk` of client.go lines 90-95. -/
def Client.Bulk (_c : Client) : BulkBuilder :=
  { constructs := [] }

namespace BulkBuilder

/-- Method `AddConstruct` of builders.go lines 146-153. -/
def AddConstruct (b : BulkBuilder) (construct : ConstructBuilder) : BulkBuilder :=
  match construct.ToMap with
  | .error _ => b
  | .ok constructMap => { b with constructs := b.constructs ++ [constructMap] }

/-- Method `Execute` of builders.go lines 156-176; `doPost` is
`b.client.doPost`. -/
def Execute (doPost : String → GoMap → Except GoError Result) (b : BulkBuilder) :
    Except GoError BulkResponse :=
  if b.constructs.length = 0 then
    .error (.taapi (InvalidArgumentError "at least one construct is required"))
  else
    let payload := GoMap.make.set "construct" (.arr (b.constructs.map GoMap.toJSON))
    match doPost "/bulk" payload with
    | .error err => .error err
    | .ok result =>
      match result with
      | .bulk bulkResp => .ok bulkResp
      | _ => .error (.other "unexpected response type")

end BulkBuilder

/-- The struct `ManualBuilder` of builders.go (without the field `client`).
A candle is a `[]interface{}`, carried as the JSON values it marshals to. -/
structure ManualBuilder where
  indicator : String := ""
  candles : List (List JSON) := []
  params : GoMap := .nil

/-- Method `Client.Manual` of client.go lines 108-114. -/
def Client.Manual (_c : Client) (indicator : Indicator) : ManualBuilder :=
  { indicator := indicator.String, params := GoMap.make }

namespace ManualBuilder

/-- Method `WithCandles` of builders.go lines 187-190. -/
def WithCandles (b : ManualBuilder) (candles : List (List JSON)) : ManualBuilder :=
  { b with candles := candles }

/-- Method `WithCandleStructs` of builders.go lines 193-199: a slice of
`len(candles)` empty entries is made, and entry `i` is assigned for every
index `i` of the range. -/
def WithCandleStructs (b : ManualBuilder) (candles : List Candle) : ManualBuilder :=
  let made : List (List JSON) := List.replicate candles.length []
  { b with candles := candles.enum.foldl (fun acc ic => acc.set ic.1 ic.2.ToArray) made }

/-- Method `Execute` of builders.go lines 216-241; `doPost` is
`b.client.doPost`. -/
def Execute (doPost : String → GoMap → Except GoError Result) (b : ManualBuilder) :
    Except GoError IndicatorResponse :=
  if b.candles.length = 0 then
    .error (.taapi (InvalidArgumentError "candles are required"))
  else
    let payload := (GoMap.make.set "indicator" (.str b.indicator)).set "candles"
      (.arr (b.candles.map JSON.arr))
    let payload := payload.merge b.params
    match doPost "/manual" payload with
    | .error err => .error err
    | .ok result =>
      match result with
      | .indicator indicatorResp => .ok indicatorResp
      | _ => .error (.other "unexpected response type")

end ManualBuilder

/-! ## The direct builder: constructors and setters (client.go, builders.go) -/

/-- Method `Client.Exchange` of client.go lines 50-55. -/
def Client.Exchange (_c : Client) (exchange : Taapi.Exchange) : DirectBuilder :=
  { exchange := exchange.String }

/-- Method `Client.Symbol` of client.go lines 58-63. -/
def Client.Symbol (_c : Client) (symbol : String) : DirectBuilder :=
  { symbol := symbol }

/-- Method `Client.Interval` of client.go lines 66-71. -/
def Client.Interval (_c : Client) (interval : Taapi.Interval) : DirectBuilder :=
  { interval := interval.String }

/-- Method `Client.Indicator` of client.go lines 74-79. -/
def Client.Indicator (_c : Client) (indicator : Taapi.Indicator) : DirectBuilder :=
  { indicator := indicator.String }

/-- Method `Client.Direct` of client.go lines 82-87. -/
def Client.Direct (_c : Client) : DirectBuilder :=
  { params := GoMap.make }

/-- Method `DirectBuilder.Exchange` of builders.go lines 16-19. -/
def DirectBuilder.Exchange (b : DirectBuilder) (exchange : Taapi.Exchange) : DirectBuilder :=
  { b with exchange := exchange.String }

/-- Method `DirectBuilder.Symbol` of builders.go lines 22-25. -/
def DirectBuilder.Symbol (b : DirectBuilder) (symbol : String) : DirectBuilder :=
  { b with symbol := symbol }

/-- Method `DirectBuilder.Interval` of builders.go lines 28-31. -/
def DirectBuilder.Interval (b : DirectBuilder) (interval : Taapi.Interval) : DirectBuilder :=
  { b with interval := interval.String }

/-- Method `DirectBuilder.Indicator` of builders.go lines 34-37. -/
def DirectBuilder.Indicator (b : DirectBuilder) (indicator : Taapi.Indicator) :
    DirectBuilder :=
  { b with indicator := indicator.String }

/-- The guard `if b.params == nil { b.params = make(map[string]interface{}) }`
of `WithParams` and `WithParam`. -/
def DirectBuilder.initParams (b : DirectBuilder) : DirectBuilder :=
  match b.params with
  | .nil => { b with params := GoMap.make }
  | _ => b

/-- Method `DirectBuilder.WithParams` of builders.go lines 40-48. -/
def DirectBuilder.WithParams (b : DirectBuilder) (params : GoMap) : DirectBuilder :=
  let b := b.initParams
  { b with params := b.params.merge params }

/-- Method `DirectBuilder.WithParam` of builders.go lines 51-57. -/
def DirectBuilder.WithParam (b : DirectBuilder) (key : String) (value : JSON) :
    DirectBuilder :=
  let b := b.initParams
  { b with params := b.params.set key value }

/-- Method `DirectBuilder.Backtrack` of builders.go lines 60-62. -/
def DirectBuilder.Backtrack (b : DirectBuilder) (backtrack : Int) : DirectBuilder :=
  b.WithParam "backtrack" (.num backtrack)

/-- Method `DirectBuilder.Backtracks` of builders.go lines 65-67. -/
def DirectBuilder.Backtracks (b : DirectBuilder) (backtracks : Int) : DirectBuilder :=
  b.WithParam "backtracks" (.num backtracks)

/-- One call of a setter of the direct builder, with its arguments. -/
inductive DirectCall where
  | Exchange (exchange : Taapi.Exchange) : DirectCall
  | Symbol (symbol : String) : DirectCall
  | Interval (interval : Taapi.Interval) : DirectCall
  | Indicator (indicator : Taapi.Indicator) : DirectCall
  | WithParams (params : GoMap) : DirectCall
  | WithParam (key : String) (value : JSON) : DirectCall

/-- The builder after one setter call. -/
def DirectBuilder.call (b : DirectBuilder) : DirectCall → DirectBuilder
  | .Exchange exchange => b.Exchange exchange
  | .Symbol symbol => b.Symbol symbol
  | .Interval interval => b.Interval interval
  | .Indicator indicator => b.Indicator indicator
  | .WithParams params => b.WithParams params
  | .WithParam key value => b.WithParam key value

/-- The token a call gives to the field `exchange`, if it is a call of
`Exchange`. -/
def DirectCall.exchangeArg : DirectCall → Option String
  | .Exchange exchange => some exchange.token
  | _ => none

/-- The string a call gives to the field `symbol`, if it is a call of
`Symbol`. -/
def DirectCall.symbolArg : DirectCall → Option String
  | .Symbol symbol => some symbol
  | _ => none

/-- The token a call gives to the field `interval`, if it is a call of
`Interval`. -/
def DirectCall.intervalArg : DirectCall → Option String
  | .Interval interval => some interval.token
  | _ => none

/-- The token a call gives to the field `indicator`, if it is a call of
`Indicator`. -/
def DirectCall.indicatorArg : DirectCall → Option String
  | .Indicator indicator => some indicator.token
  | _ => none

/-! ## Lemmas on maps -/

namespace GoMap

theorem lookup_cons_ne (a k : String) (v : JSON) (t : List (String × JSON)) (h : k ≠ a) :
    ((a, v) :: t).lookup k = t.lookup k := by
  have : (k == a) = false := by simpa using h
  rw [List.lookup_cons, this]

theorem lookup_filter_ne (es : List (String × JSON)) (k k' : String) :
    (es.filter (fun e => e.1 != k)).lookup k' = if k' = k then none else es.lookup k' := by
  induction es with
  | nil => simp
  | cons e t ih =>
    obtain ⟨a, v⟩ := e
    by_cases hak : a = k
    · subst hak
      have hf : ((a, v).1 != a) = false := by simp
      rw [List.filter_cons, hf, if_neg (by simp), ih]
      by_cases hk : k' = a
      · simp [hk]
      · simp [hk, lookup_cons_ne a k' v t hk]
    · have hf : ((a, v).1 != k) = true := by simpa using hak
      rw [List.filter_cons, hf, if_pos rfl]
      by_cases hk : k' = a
      · subst hk
        simp [hak]
      · rw [lookup_cons_ne a k' v _ hk, lookup_cons_ne a k' v _ hk, ih]

theorem get_make (k : String) : make.get k = none := rfl

theorem get_nil (k : String) : nil.get k = none := rfl

theorem get_set (m : GoMap) (k : String) (v : JSON) (k' : String) :
    (m.set k v).get k' = if k' = k then some v else m.get k' := by
  unfold set get
  simp only [entries]
  rw [List.lookup_append, lookup_filter_ne]
  by_cases hk : k' = k
  · simp [hk]
  · simp [hk, lookup_cons_ne k k' v [] hk]

theorem get_delete (m : GoMap) (k k' : String) :
    (m.delete k).get k' = if k' = k then none else m.get k' := by
  cases m with
  | nil => simp [delete, get, entries]
  | mk es h => simp [delete, get, entries, lookup_filter_ne]

theorem get_foldl_set (es : List (String × JSON)) (acc : GoMap) (k : String) :
    (es.foldl (fun acc e => acc.set e.1 e.2) acc).get k
      = (es.reverse.lookup k).or (acc.get k) := by
  induction es generalizing acc with
  | nil => simp
  | cons e t ih =>
    obtain ⟨a, v⟩ := e
    rw [List.foldl_cons, ih, get_set, List.reverse_cons, List.lookup_append]
    cases h : List.lookup k t.reverse with
    | some v => simp
    | none =>
      by_cases hk : k = a
      · simp [hk]
      · simp [hk, lookup_cons_ne a k v [] hk]

theorem lookup_reverse_of_nodup (es : List (String × JSON))
    (h : (es.map Prod.fst).Nodup) (k : String) :
    es.reverse.lookup k = es.lookup k := by
  induction es with
  | nil => rfl
  | cons e t ih =>
    obtain ⟨a, v⟩ := e
    rw [List.map_cons, List.nodup_cons] at h
    rw [List.reverse_cons, List.lookup_append, ih h.2]
    by_cases hk : k = a
    · have hnone : List.lookup k t = none := by
        rw [List.lookup_eq_none_iff]
        intro p hp
        have : p.1 ≠ a := fun hpe => h.1 (hpe ▸ List.mem_map.2 ⟨p, hp, rfl⟩)
        simpa [hk] using (Ne.symm this)
      rw [hnone, hk]
      simp
    · rw [lookup_cons_ne a k v t hk, lookup_cons_ne a k v [] hk]
      simp

theorem get_merge (dst src : GoMap) (k : String) :
    (dst.merge src).get k = (src.get k).or (dst.get k) := by
  unfold merge
  rw [get_foldl_set, lookup_reverse_of_nodup _ src.entries_nodup]
  rfl

theorem get_ofMembers (ms : List (String × JSON)) (k : String) :
    (ofMembers ms).get k = (JSON.obj ms).field k := by
  unfold ofMembers
  rw [get_foldl_set, get_make, Option.or_none]
  rfl

theorem field_entries (m : GoMap) (k : String) :
    (JSON.obj m.entries).field k = m.get k := by
  show m.entries.reverse.lookup k = m.entries.lookup k
  exact lookup_reverse_of_nodup _ m.entries_nodup k

theorem filter_ne_of_not_mem (es : List (String × JSON)) (k : String)
    (h : k ∉ es.map Prod.fst) : es.filter (fun e => e.1 != k) = es := by
  rw [List.filter_eq_self]
  intro e he
  have : e.1 ≠ k := fun hek => h (hek ▸ List.mem_map.2 ⟨e, he, rfl⟩)
  simpa using this

theorem foldl_set_mk (es acc : List (String × JSON))
    (hacc : (acc.map Prod.fst).Nodup) (h : ((acc ++ es).map Prod.fst).Nodup) :
    es.foldl (fun acc e => acc.set e.1 e.2) (mk acc hacc) = mk (acc ++ es) h := by
  induction es generalizing acc with
  | nil => simp
  | cons e t ih =>
    obtain ⟨a, v⟩ := e
    have hnot : a ∉ acc.map Prod.fst := by
      intro ha
      rw [List.map_append, List.nodup_append] at h
      exact h.2.2 ha (by simp)
    have h1 : ((acc ++ [(a, v)]).map Prod.fst).Nodup := by
      have : acc ++ (a, v) :: t = (acc ++ [(a, v)]) ++ t := by simp
      rw [this, List.map_append] at h
      exact (List.nodup_append.1 h).1
    have hset : (mk acc hacc).set a v = mk (acc ++ [(a, v)]) h1 := by
      simp [set, entries, filter_ne_of_not_mem acc a hnot]
    have h2 : (((acc ++ [(a, v)]) ++ t).map Prod.fst).Nodup := by
      simpa using h
    rw [List.foldl_cons, hset, ih (acc ++ [(a, v)]) h1 h2]
    simp

/-- Marshalling a made map and decoding the object again gives the same map. -/
theorem ofMembers_entries (es : List (String × JSON)) (h : (es.map Prod.fst).Nodup) :
    ofMembers es = mk es h := by
  unfold ofMembers make
  rw [foldl_set_mk es [] List.nodup_nil (by simpa using h)]
  simp

theorem ofMembers_ne_nil (ms : List (String × JSON)) :
    ∃ es h, ofMembers ms = mk es h := by
  unfold ofMembers
  induction ms using List.reverseRecOn with
  | nil => exact ⟨[], List.nodup_nil, rfl⟩
  | append_singleton t e _ =>
    rw [List.foldl_append]
    exact ⟨_, _, rfl⟩

end GoMap

/-! ## Lemmas on decoding -/

theorem JSON.asString_eq_some (v : Option JSON) (s : String) :
    JSON.asString v = some s ↔ v = some (.str s) := by
  cases v with
  | none => simp [JSON.asString]
  | some j => cases j <;> simp [JSON.asString]

namespace IndicatorResponse

/-- What `UnmarshalJSON` stores, in terms of the map `raw` the codec read. -/
theorem UnmarshalJSON_of_raw (r0 : IndicatorResponse) (data : Payload) (raw : GoMap)
    (h : jsonUnmarshalMap data = .ok raw) :
    ∃ r, UnmarshalJSON r0 data = .ok r ∧
      r.Indicator = (JSON.asString (raw.get "indicator")).getD r0.Indicator ∧
      r.ID = (JSON.asString (raw.get "id")).getD r0.ID ∧
      ∀ k, r.Data.get k =
        if (k = "indicator" ∨ k = "id") ∧ JSON.isString (raw.get k) = true then none
        else raw.get k := by
  have hne : ("id" : String) ≠ "indicator" := by decide
  unfold UnmarshalJSON
  rw [h]
  simp only
  cases h1 : JSON.asString (raw.get "indicator") with
  | none =>
    cases h2 : JSON.asString (raw.get "id") with
    | none =>
      refine ⟨_, rfl, rfl, rfl, ?_⟩
      intro k
      by_cases hk : k = "indicator" ∨ k = "id"
      · rcases hk with rfl | rfl <;> simp [JSON.isString, h1, h2]
      · simp [hk]
    | some s2 =>
      refine ⟨_, rfl, rfl, rfl, ?_⟩
      intro k
      simp only [GoMap.get_delete]
      by_cases hk2 : k = "id"
      · subst hk2; simp [JSON.isString, h2]
      · by_cases hk1 : k = "indicator"
        · subst hk1; simp [JSON.isString, h1]
        · simp [hk1, hk2]
  | some s1 =>
    simp only [GoMap.get_delete, if_neg hne]
    cases h2 : JSON.asString (raw.get "id") with
    | none =>
      refine ⟨_, rfl, rfl, rfl, ?_⟩
      intro k
      simp only [GoMap.get_delete]
      by_cases hk1 : k = "indicator"
      · subst hk1; simp [JSON.isString, h1]
      · by_cases hk2 : k = "id"
        · subst hk2; simp [JSON.isString, h2]
        · simp [hk1, hk2]
    | some s2 =>
      refine ⟨_, rfl, rfl, rfl, ?_⟩
      intro k
      simp only [GoMap.get_delete]
      by_cases hk1 : k = "indicator"
      · subst hk1; simp [JSON.isString, h1]
      · by_cases hk2 : k = "id"
        · subst hk2; simp [JSON.isString, h2]
        · simp [hk1, hk2]

end IndicatorResponse

theorem GoMap.set_made (m : GoMap) (k : String) (v : JSON) :
    ∃ l hl, m.set k v = GoMap.mk l hl := by
  unfold GoMap.set
  exact ⟨_, _, rfl⟩

theorem GoMap.make_made : ∃ l hl, GoMap.make = GoMap.mk l hl := ⟨_, _, rfl⟩

theorem GoMap.foldl_set_made (es : List (String × JSON)) (acc : GoMap)
    (h : ∃ l hl, acc = GoMap.mk l hl) :
    ∃ l hl, es.foldl (fun acc e => acc.set e.1 e.2) acc = GoMap.mk l hl := by
  induction es generalizing acc with
  | nil => exact h
  | cons e t ih => exact ih _ (GoMap.set_made _ _ _)

theorem jsonMarshalMap_made (m : GoMap) (h : ∃ l hl, m = GoMap.mk l hl) :
    jsonMarshalMap m = .ok (.text (.obj m.entries)) := by
  obtain ⟨l, hl, rfl⟩ := h
  rfl

namespace IndicatorResponse

/-- What `MarshalJSON` emits: an object that holds the entries of `Data`, and
`id` / `indicator` from the fields when they are non-empty and `Data` has no
such key. -/
theorem MarshalJSON_fields (r : IndicatorResponse) :
    ∃ ms, MarshalJSON r = .ok (.text (.obj ms)) ∧
      ∀ k, (JSON.obj ms).field k =
        (r.Data.get k).or
          (if k = "id" ∧ r.ID ≠ "" then some (.str r.ID)
           else if k = "indicator" ∧ r.Indicator ≠ "" then some (.str r.Indicator)
           else none) := by
  unfold MarshalJSON
  simp only
  have hmade : ∀ m : GoMap, (∃ l hl, m = GoMap.mk l hl) →
      ∃ l hl, m.merge r.Data = GoMap.mk l hl := fun m hm =>
    GoMap.foldl_set_made _ m hm
  have h0 : ∃ l hl, (if r.ID != "" then
      (if r.Indicator != "" then GoMap.make.set "indicator" (.str r.Indicator)
        else GoMap.make).set "id" (.str r.ID)
      else (if r.Indicator != "" then GoMap.make.set "indicator" (.str r.Indicator)
        else GoMap.make)) = GoMap.mk l hl := by
    split
    · exact GoMap.set_made _ _ _
    · split
      · exact GoMap.set_made _ _ _
      · exact GoMap.make_made
  refine ⟨_, jsonMarshalMap_made _ (hmade _ h0), ?_⟩
  intro k
  rw [GoMap.field_entries, GoMap.get_merge]
  congr 1
  by_cases hid : r.ID = "" <;> by_cases hind : r.Indicator = "" <;>
    by_cases hk1 : k = "id" <;> by_cases hk2 : k = "indicator" <;>
    simp [hid, hind, hk1, hk2, GoMap.get_set, GoMap.get_make]

end IndicatorResponse

theorem jsonUnmarshalMap_marshal (m : GoMap) :
    ∃ p, jsonMarshalMap m = .ok p ∧ jsonUnmarshalMap p = .ok m := by
  cases m with
  | nil => exact ⟨_, rfl, rfl⟩
  | mk es h =>
    refine ⟨_, rfl, ?_⟩
    show Except.ok (GoMap.ofMembers es) = Except.ok (GoMap.mk es h)
    rw [GoMap.ofMembers_entries es h]

theorem IndicatorResponse.UnmarshalJSON_congr (r : IndicatorResponse) (d₁ d₂ : Payload)
    (h : jsonUnmarshalMap d₁ = jsonUnmarshalMap d₂) :
    IndicatorResponse.UnmarshalJSON r d₁ = IndicatorResponse.UnmarshalJSON r d₂ := by
  unfold IndicatorResponse.UnmarshalJSON
  rw [h]

theorem jsonUnmarshalMap_ok_of_shape (x : JSON) (h : (x.isObject || x.isNull) = true) :
    ∃ m, jsonUnmarshalMap (.text x) = .ok m := by
  cases x <;> simp [JSON.isObject, JSON.isNull] at h
  · exact ⟨_, rfl⟩
  · exact ⟨_, rfl⟩

theorem jsonUnmarshalMap_error_of_shape (x : JSON) (h : (x.isObject || x.isNull) = false) :
    jsonUnmarshalMap (.text x) = .error .unmarshalTypeError := by
  cases x <;> simp [JSON.isObject, JSON.isNull] at h <;> rfl

namespace BulkResponse

/-- One turn of the loop never skips: the element's map, marshalled, decodes
to the response that the element itself decodes to. -/
theorem unmarshalItem_append (acc : List IndicatorResponse) (x : JSON) (m : GoMap)
    (hm : jsonUnmarshalMap (.text x) = .ok m) :
    ∃ r, IndicatorResponse.UnmarshalJSON {} (.text x) = .ok r ∧
      unmarshalItem acc m = acc ++ [r] := by
  obtain ⟨p, hp, hback⟩ := jsonUnmarshalMap_marshal m
  obtain ⟨r, hr, _⟩ := IndicatorResponse.UnmarshalJSON_of_raw {} (.text x) m hm
  have hsame : IndicatorResponse.UnmarshalJSON {} p = .ok r := by
    rw [IndicatorResponse.UnmarshalJSON_congr {} p (.text x) (by rw [hback, hm]), hr]
  refine ⟨r, hr, ?_⟩
  unfold unmarshalItem
  rw [hp]
  simp only
  rw [hsame]

theorem elems_decode (xs : List JSON) (h : xs.all (fun x => x.isObject || x.isNull) = true)
    (acc : List IndicatorResponse) :
    ∃ raw rs, jsonUnmarshalElems xs = .ok raw ∧
      raw.foldl unmarshalItem acc = acc ++ rs ∧
      rs.map Except.ok = xs.map (fun x => IndicatorResponse.UnmarshalJSON {} (.text x)) := by
  induction xs generalizing acc with
  | nil => exact ⟨[], [], rfl, by simp, rfl⟩
  | cons x t ih =>
    rw [List.all_cons, Bool.and_eq_true] at h
    obtain ⟨m, hm⟩ := jsonUnmarshalMap_ok_of_shape x h.1
    obtain ⟨r, hr, hstep⟩ := unmarshalItem_append acc x m hm
    obtain ⟨raw, rs, hraw, hfold, hrs⟩ := ih h.2 (acc ++ [r])
    refine ⟨m :: raw, r :: rs, ?_, ?_, ?_⟩
    · simp only [jsonUnmarshalElems, hm, hraw]
    · rw [List.foldl_cons, hstep, hfold]
      simp
    · rw [List.map_cons, List.map_cons, hrs, hr]

theorem elems_error (xs : List JSON) (h : xs.all (fun x => x.isObject || x.isNull) = false) :
    jsonUnmarshalElems xs = .error .unmarshalTypeError := by
  induction xs with
  | nil => simp at h
  | cons x t ih =>
    cases hx : (x.isObject || x.isNull) with
    | false =>
      simp only [jsonUnmarshalElems, jsonUnmarshalMap_error_of_shape x hx]
    | true =>
      obtain ⟨m, hm⟩ := jsonUnmarshalMap_ok_of_shape x hx
      have ht : t.all (fun x => x.isObject || x.isNull) = false := by
        rw [List.all_cons, hx, Bool.true_and] at h
        exact h
      simp only [jsonUnmarshalElems, hm, ih ht]

/-- Decoding an array whose elements are all objects or `null`. -/
theorem UnmarshalJSON_array (b0 : BulkResponse) (xs : List JSON)
    (h : xs.all (fun x => x.isObject || x.isNull) = true) :
    ∃ b, UnmarshalJSON b0 (.text (.arr xs)) = .ok b ∧
      b.Responses.map Except.ok
        = xs.map (fun x => IndicatorResponse.UnmarshalJSON {} (.text x)) := by
  obtain ⟨raw, rs, hraw, hfold, hrs⟩ := elems_decode xs h []
  refine ⟨{ Responses := rs }, ?_, hrs⟩
  unfold UnmarshalJSON
  simp only [jsonUnmarshalMaps, hraw, hfold, List.nil_append]

end BulkResponse

/-! ## Response decoding and encoding -/

/-- C1: Round trip. Decoding any JSON object `x` into a fresh
`IndicatorResponse` succeeds, encoding the result succeeds and yields a JSON
object, and that object has under every key the value `x` has, except that an
`indicator` or `id` key whose value in `x` is the empty string is absent. -/
theorem roundtrip_encode_decode (ms : List (String × JSON)) :
    ∃ r ms', IndicatorResponse.UnmarshalJSON {} (.text (.obj ms)) = .ok r ∧
      r.MarshalJSON = .ok (.text (.obj ms')) ∧
      ∀ k, (JSON.obj ms').field k =
        if (k = "indicator" ∨ k = "id") ∧ JSON.asString ((JSON.obj ms).field k) = some ""
        then none else (JSON.obj ms).field k := by
  obtain ⟨r, hr, hind, hid, hdata⟩ :=
    IndicatorResponse.UnmarshalJSON_of_raw {} (.text (.obj ms)) (GoMap.ofMembers ms) rfl
  obtain ⟨ms', hm, hfield⟩ := IndicatorResponse.MarshalJSON_fields r
  refine ⟨r, ms', hr, hm, ?_⟩
  intro k
  rw [hfield, hdata]
  simp only [GoMap.get_ofMembers] at hind hid ⊢
  have hne : ("id" : String) ≠ "indicator" := by decide
  by_cases hk2 : k = "id"
  · subst hk2
    cases hs : JSON.asString ((JSON.obj ms).field "id") with
    | none =>
      rw [hs] at hid
      have hid' : r.ID = "" := hid
      simp [JSON.isString, hs, hid']
    | some s =>
      have hv := (JSON.asString_eq_some _ _).1 hs
      rw [hs] at hid
      have hid' : r.ID = s := hid
      by_cases hse : s = ""
      · simp [JSON.isString, hs, hid', hse]
      · simp [JSON.isString, JSON.asString, hv, hid', hse]
  · by_cases hk1 : k = "indicator"
    · subst hk1
      cases hs : JSON.asString ((JSON.obj ms).field "indicator") with
      | none =>
        rw [hs] at hind
        have hind' : r.Indicator = "" := hind
        simp [JSON.isString, hs, hind']
      | some s =>
        have hv := (JSON.asString_eq_some _ _).1 hs
        rw [hs] at hind
        have hind' : r.Indicator = s := hind
        by_cases hse : s = ""
        · simp [JSON.isString, hs, hind', hse]
        · simp [JSON.isString, JSON.asString, hv, hind', hse]
    · simp [hk1, hk2]

/-- C2: For every JSON object `x` whose `indicator` is the string `si` and
whose `id` is the string `sd`, decoding `x` into a fresh `IndicatorResponse`
succeeds with `Indicator = si`, `ID = sd`, and a `Data` that has no
`indicator` and no `id` key and under every other key the value `x` has. -/
theorem decode_string_fields (ms : List (String × JSON)) (si sd : String)
    (hi : (JSON.obj ms).field "indicator" = some (.str si))
    (hd : (JSON.obj ms).field "id" = some (.str sd)) :
    ∃ r, IndicatorResponse.UnmarshalJSON {} (.text (.obj ms)) = .ok r ∧
      r.Indicator = si ∧ r.ID = sd ∧
      ∀ k, r.Data.get k =
        if k = "indicator" ∨ k = "id" then none else (JSON.obj ms).field k := by
  obtain ⟨r, hr, hind, hid, hdata⟩ :=
    IndicatorResponse.UnmarshalJSON_of_raw {} (.text (.obj ms)) (GoMap.ofMembers ms) rfl
  simp only [GoMap.get_ofMembers] at hind hid hdata
  refine ⟨r, hr, ?_, ?_, ?_⟩
  · rw [hind, hi]; rfl
  · rw [hid, hd]; rfl
  · intro k
    rw [hdata]
    by_cases hk : k = "indicator" ∨ k = "id"
    · rcases hk with rfl | rfl
      · simp [JSON.isString, JSON.asString, hi]
      · simp [JSON.isString, JSON.asString, hd]
    · simp [hk]

/-- Witness for C2: the object of `TestIndicatorResponseUnmarshal`,
`{"indicator":"rsi","value":65.5,"id":"test_id"}`. -/
theorem decode_string_fields_witness :
    ∃ r, IndicatorResponse.UnmarshalJSON {}
        (.text (.obj [("indicator", .str "rsi"), ("value", .num 65.5), ("id", .str "test_id")]))
          = .ok r ∧
      r.Indicator = "rsi" ∧ r.ID = "test_id" ∧
      ∀ k, r.Data.get k =
        if k = "indicator" ∨ k = "id" then none
        else (JSON.obj [("indicator", .str "rsi"), ("value", .num 65.5),
          ("id", .str "test_id")]).field k :=
  decode_string_fields _ "rsi" "test_id" rfl rfl

/-- C3, as stated, fails: decoding `{"indicator":5}` leaves the key
`indicator` in `Data`. -/
theorem data_keeps_nonstring_indicator :
    ∃ r, IndicatorResponse.UnmarshalJSON {} (.text (.obj [("indicator", .num 5)])) = .ok r ∧
      r.Data.get "indicator" = some (.num 5) :=
  ⟨_, rfl, rfl⟩

/-- C3, amended: for every JSON object `x` and receiver, decoding succeeds and
`Data` has under each key the value `x` has, except that `indicator` and `id`
are absent when their value in `x` is a string; a non-string `indicator` or
`id` stays in `Data`. -/
theorem data_drops_string_fields (r0 : IndicatorResponse) (ms : List (String × JSON)) :
    ∃ r, IndicatorResponse.UnmarshalJSON r0 (.text (.obj ms)) = .ok r ∧
      ∀ k, r.Data.get k =
        if (k = "indicator" ∨ k = "id") ∧ JSON.isString ((JSON.obj ms).field k) = true
        then none else (JSON.obj ms).field k := by
  obtain ⟨r, hr, _, _, hdata⟩ :=
    IndicatorResponse.UnmarshalJSON_of_raw r0 (.text (.obj ms)) (GoMap.ofMembers ms) rfl
  simp only [GoMap.get_ofMembers] at hdata
  exact ⟨r, hr, hdata⟩

/-! ## Bulk responses -/

/-- C4: For every JSON array of `n` JSON objects (and any receiver), decoding
it as a `BulkResponse` succeeds, `Count()` is `n`, and the responses are, in
order, the `IndicatorResponse`s decoded from the array elements; for the
two-element rsi/macd input of `TestBulkResponseUnmarshal`, `Count()` is 2 and
`FindByID("rsi_1")` has `Indicator` "rsi" and `GetValue()` 65.5. -/
theorem bulk_decode_objects (b0 : BulkResponse) (xs : List (List (String × JSON))) :
    (∃ b, BulkResponse.UnmarshalJSON b0 (.text (.arr (xs.map JSON.obj))) = .ok b ∧
      b.Count = xs.length ∧
      ∀ i : Nat, (b.Responses[i]?).map Except.ok
        = (xs[i]?).map (fun ms => IndicatorResponse.UnmarshalJSON {} (.text (.obj ms)))) ∧
    (∃ b r, BulkResponse.UnmarshalJSON b0 (.text (.arr
        [.obj [("indicator", .str "rsi"), ("value", .num 65.5), ("id", .str "rsi_1")],
         .obj [("indicator", .str "macd"), ("valueMACD", .num 1.5), ("id", .str "macd_1")]]))
          = .ok b ∧
      b.Count = 2 ∧ b.FindByID "rsi_1" = some r ∧ r.Indicator = "rsi" ∧
      r.GetValue = .value (.num 65.5)) := by
  constructor
  · have hall : (xs.map JSON.obj).all (fun x => x.isObject || x.isNull) = true := by
      simp [List.all_eq_true, JSON.isObject]
    obtain ⟨b, hb, hrs⟩ := BulkResponse.UnmarshalJSON_array b0 _ hall
    refine ⟨b, hb, ?_, ?_⟩
    · have := congrArg List.length hrs
      simpa [BulkResponse.Count] using this
    · intro i
      have := congrArg (fun l => l[i]?) hrs
      simpa [List.getElem?_map] using this
  · exact ⟨_, _, rfl, rfl, rfl, rfl, rfl⟩

/-- C5, as stated, fails: the JSON array `[1]` does not decode with its
malformed element dropped; the whole decode fails. -/
theorem bulk_decode_rejects_number_element :
    BulkResponse.UnmarshalJSON {} (.text (.arr [.num 1])) = .error .unmarshalTypeError :=
  rfl

/-- C5, amended: decoding a JSON array as a `BulkResponse` succeeds exactly
when every element is an object or `null`, and then no element is dropped:
the responses are, in order, the `IndicatorResponse`s decoded from the
elements; an array with any other element makes the whole decode fail.  Among
the payloads that are not arrays, `null` decodes to no responses and every
other one fails. -/
theorem bulk_decode_all_or_nothing (b0 : BulkResponse) :
    (∀ xs : List JSON,
      (xs.all (fun x => x.isObject || x.isNull) = true ∧
        ∃ b, BulkResponse.UnmarshalJSON b0 (.text (.arr xs)) = .ok b ∧
          b.Count = xs.length ∧
          b.Responses.map Except.ok
            = xs.map (fun x => IndicatorResponse.UnmarshalJSON {} (.text x))) ∨
      (xs.all (fun x => x.isObject || x.isNull) = false ∧
        BulkResponse.UnmarshalJSON b0 (.text (.arr xs)) = .error .unmarshalTypeError)) ∧
    BulkResponse.UnmarshalJSON b0 .malformed = .error .syntaxError ∧
    (∃ b, BulkResponse.UnmarshalJSON b0 (.text .null) = .ok b ∧ b.Count = 0) ∧
    (∀ j : JSON, j.isArray = false → j.isNull = false →
      BulkResponse.UnmarshalJSON b0 (.text j) = .error .unmarshalTypeError) := by
  refine ⟨?_, rfl, ⟨_, rfl, rfl⟩, ?_⟩
  · intro xs
    cases h : xs.all (fun x => x.isObject || x.isNull) with
    | true =>
      left
      obtain ⟨b, hb, hrs⟩ := BulkResponse.UnmarshalJSON_array b0 xs h
      refine ⟨rfl, b, hb, ?_, hrs⟩
      have := congrArg List.length hrs
      simpa [BulkResponse.Count] using this
    | false =>
      right
      refine ⟨rfl, ?_⟩
      unfold BulkResponse.UnmarshalJSON
      simp only [jsonUnmarshalMaps, BulkResponse.elems_error xs h]
  · intro j ha hn
    cases j <;> simp [JSON.isArray, JSON.isNull] at ha hn <;> rfl

/-! ## Accessors -/

/-- C6: For every `IndicatorResponse` `r`, `GetValue()` returns `Data["value"]`
when the key `value` is present in `Data`, and the entire `Data` bag
otherwise; for a MACD-shaped bag with only `valueMACD` and `valueMACDSignal`
it returns the bag. -/
theorem getValue_value_or_bag (r : IndicatorResponse) :
    (∀ v, r.Data.get "value" = some v → r.GetValue = .value v) ∧
    (r.Data.get "value" = none → r.GetValue = .dataMap r.Data) ∧
    (IndicatorResponse.GetValue
        { Indicator := "macd",
          Data := (GoMap.make.set "valueMACD" (.num 1.5)).set "valueMACDSignal" (.num 1.2) }
      = .dataMap ((GoMap.make.set "valueMACD" (.num 1.5)).set "valueMACDSignal" (.num 1.2))) := by
  refine ⟨?_, ?_, rfl⟩
  · intro v hv
    simp [IndicatorResponse.GetValue, hv]
  · intro hv
    simp [IndicatorResponse.GetValue, hv]

/-- C7: For every `IndicatorResponse` `r` and key `k`: `GetFloat(k)` is
`(f, true)` exactly when `Data[k]` is present and is the number `f`, and is
`(0, false)` in every other case; `GetString(k)` is `(s, true)` exactly when
`Data[k]` is present and is the string `s`, and is `("", false)` in every
other case; `Has(k)` is true exactly when `Get(k)` reports found, which is
exactly when the key is present.  All four are total functions. -/
theorem typed_lookups (r : IndicatorResponse) (k : String) :
    (∀ f, r.GetFloat k = (f, true) ↔ r.Data.get k = some (.num f)) ∧
    ((∃ f, r.Data.get k = some (.num f)) ∨ r.GetFloat k = (0, false)) ∧
    (∀ s, r.GetString k = (s, true) ↔ r.Data.get k = some (.str s)) ∧
    ((∃ s, r.Data.get k = some (.str s)) ∨ r.GetString k = ("", false)) ∧
    (r.Has k = true ↔ (r.Get k).2 = true) ∧
    (r.Has k = true ↔ ∃ v, r.Data.get k = some v ∧ r.Get k = (v, true)) ∧
    (r.Has k = false ↔ r.Data.get k = none ∧ r.Get k = (.null, false)) := by
  unfold IndicatorResponse.GetFloat IndicatorResponse.GetString IndicatorResponse.Get
    IndicatorResponse.Has
  cases h : r.Data.get k with
  | none => simp
  | some v => cases v <;> simp

/-- C8: For every `BulkResponse` `b` and string `id`, `FindByID(id)` returns
none exactly when no response in `b.Responses` has `ID` equal to `id`;
otherwise it returns the response at the smallest index whose `ID` equals
`id`. -/
theorem findByID_first_match (b : BulkResponse) (id : String) :
    (b.FindByID id = none ↔ ∀ r ∈ b.Responses, r.ID ≠ id) ∧
    (∀ r, b.FindByID id = some r ↔
      ∃ i : Nat, b.Responses[i]? = some r ∧ r.ID = id ∧
        ∀ j : Nat, j < i → ∀ r', b.Responses[j]? = some r' → r'.ID ≠ id) := by
  unfold BulkResponse.FindByID
  generalize b.Responses = rs
  induction rs with
  | nil => simp [BulkResponse.FindByID.go]
  | cons a t ih =>
    by_cases ha : a.ID = id
    · constructor
      · simp [BulkResponse.FindByID.go, ha]
      · intro r
        simp only [BulkResponse.FindByID.go, ha, if_true]
        constructor
        · intro h
          have har : a = r := by simpa using h
          subst har
          exact ⟨0, by simp, ha, fun j hj => absurd hj (Nat.not_lt_zero j)⟩
        · rintro ⟨i, hi, _, hmin⟩
          cases i with
          | zero => simpa using hi
          | succ n => exact absurd ha (hmin 0 (Nat.succ_pos n) a (by simp))
    · constructor
      · simp [BulkResponse.FindByID.go, ha, ih.1]
      · intro r
        simp only [BulkResponse.FindByID.go, ha, if_false]
        rw [ih.2 r]
        constructor
        · rintro ⟨i, hi, hr, hmin⟩
          refine ⟨i + 1, by simpa using hi, hr, ?_⟩
          intro j hj r' hr'
          cases j with
          | zero =>
            have : a = r' := by simpa using hr'
            exact this ▸ ha
          | succ n => exact hmin n (Nat.lt_of_succ_lt_succ hj) r' (by simpa using hr')
        · rintro ⟨i, hi, hr, hmin⟩
          cases i with
          | zero =>
            have : a = r := by simpa using hi
            exact absurd (this ▸ hr) ha
          | succ n =>
            refine ⟨n, by simpa using hi, hr, ?_⟩
            intro j hj r' hr'
            exact hmin (j + 1) (Nat.succ_lt_succ hj) r' (by simpa using hr')

theorem BulkResponse.filter_loop (rs acc : List IndicatorResponse) (indicator : String) :
    rs.foldl (fun results response =>
        if response.Indicator = indicator then results ++ [response] else results) acc
      = acc ++ rs.filter (fun r => decide (r.Indicator = indicator)) := by
  induction rs generalizing acc with
  | nil => simp
  | cons a t ih =>
    rw [List.foldl_cons, ih]
    by_cases ha : a.Indicator = indicator
    · simp [ha]
    · simp [ha]

/-- C9: For every `BulkResponse` `b` and string `name`, `FilterByIndicator(name)`
is the subsequence of `b.Responses` of exactly the responses whose `Indicator`
equals `name`, in their original relative order; its length is the number of
matches and never exceeds `Count()`. -/
theorem filterByIndicator_subsequence (b : BulkResponse) (name : String) :
    b.FilterByIndicator name = b.Responses.filter (fun r => decide (r.Indicator = name)) ∧
    (b.FilterByIndicator name).Sublist b.Responses ∧
    (∀ r, r ∈ b.FilterByIndicator name ↔ r ∈ b.Responses ∧ r.Indicator = name) ∧
    (b.FilterByIndicator name).length
      = b.Responses.countP (fun r => decide (r.Indicator = name)) ∧
    (b.FilterByIndicator name).length ≤ b.Count := by
  have h : b.FilterByIndicator name
      = b.Responses.filter (fun r => decide (r.Indicator = name)) := by
    unfold BulkResponse.FilterByIndicator
    rw [BulkResponse.filter_loop]
    simp
  refine ⟨h, ?_, ?_, ?_, ?_⟩
  · rw [h]; exact List.filter_sublist _
  · intro r; rw [h]; simp [List.mem_filter]
  · rw [h, List.countP_eq_length_filter]
  · rw [h]; exact List.length_filter_le _ _

/-! ## Builders -/

/-- C10: For every `DirectBuilder` and client, `validate` succeeds exactly
when exchange, symbol, interval and indicator are all non-empty; when at least
one is empty, `validate` and `Get` fail with the invalid-argument error whose
message names the first empty field in the order exchange, symbol, interval,
indicator, and `Get` does so without calling the client; when none is empty,
`Get` is the client's GET of "/" followed by the indicator. -/
theorem direct_validate_first_empty
    (doGet : String → GoMap → Except GoError IndicatorResponse) (b : DirectBuilder) :
    (b.validate = none ↔
      b.exchange ≠ "" ∧ b.symbol ≠ "" ∧ b.interval ≠ "" ∧ b.indicator ≠ "") ∧
    (b.exchange = "" →
      b.validate = some (InvalidArgumentError "exchange is required") ∧
      b.Get doGet = .error (.taapi (InvalidArgumentError "exchange is required"))) ∧
    (b.exchange ≠ "" → b.symbol = "" →
      b.validate = some (InvalidArgumentError "symbol is required") ∧
      b.Get doGet = .error (.taapi (InvalidArgumentError "symbol is required"))) ∧
    (b.exchange ≠ "" → b.symbol ≠ "" → b.interval = "" →
      b.validate = some (InvalidArgumentError "interval is required") ∧
      b.Get doGet = .error (.taapi (InvalidArgumentError "interval is required"))) ∧
    (b.exchange ≠ "" → b.symbol ≠ "" → b.interval ≠ "" → b.indicator = "" →
      b.validate = some (InvalidArgumentError "indicator is required") ∧
      b.Get doGet = .error (.taapi (InvalidArgumentError "indicator is required"))) ∧
    (b.exchange ≠ "" → b.symbol ≠ "" → b.interval ≠ "" → b.indicator ≠ "" →
      ∃ params, b.Get doGet = doGet ("/" ++ b.indicator) params) := by
  refine ⟨?_, ?_, ?_, ?_, ?_, ?_⟩
  · unfold DirectBuilder.validate
    by_cases h1 : b.exchange = "" <;> by_cases h2 : b.symbol = "" <;>
      by_cases h3 : b.interval = "" <;> by_cases h4 : b.indicator = "" <;>
      simp [h1, h2, h3, h4]
  · intro h1
    simp [DirectBuilder.Get, DirectBuilder.validate, h1]
  · intro h1 h2
    simp [DirectBuilder.Get, DirectBuilder.validate, h1, h2]
  · intro h1 h2 h3
    simp [DirectBuilder.Get, DirectBuilder.validate, h1, h2, h3]
  · intro h1 h2 h3 h4
    simp [DirectBuilder.Get, DirectBuilder.validate, h1, h2, h3, h4]
  · intro h1 h2 h3 h4
    simp only [DirectBuilder.Get, DirectBuilder.validate, h1, h2, h3, h4, if_false]
    exact ⟨_, rfl⟩

/-! ## Lemmas on the errors of the transport -/

/-- Every `*Error` that response handling returns wraps a cause, or carries a
status code of at least 400, or is one of its two decode errors. -/
theorem Client.handleResponse_error (c : Client) (resp : HttpResponse) (isBulk : Bool)
    (e : Error) (h : c.handleResponse resp isBulk = .error (.taapi e)) :
    e.Err ≠ none ∨ e.StatusCode ≥ 400 ∨
      e.Message = "failed to decode bulk response" ∨ e.Message = "failed to decode response" := by
  unfold Client.handleResponse at h
  cases hb : resp.Body with
  | error err =>
    rw [hb] at h
    simp only [Except.error.injEq, GoError.taapi.injEq] at h
    subst h
    left
    simp [NetworkError]
  | ok body =>
    rw [hb] at h
    simp only at h
    by_cases h429 : resp.StatusCode = http.StatusTooManyRequests
    · simp [h429] at h
    · simp only [h429, if_false] at h
      by_cases h400 : resp.StatusCode ≥ 400
      · simp only [h400, if_true, Except.error.injEq, GoError.taapi.injEq] at h
        subst h
        right; left
        exact h400
      · simp only [h400, if_false] at h
        cases isBulk with
        | true =>
          simp only [if_true] at h
          cases hd : BulkResponse.UnmarshalJSON {} body with
          | error err =>
            rw [hd] at h
            simp only [Except.error.injEq, GoError.taapi.injEq] at h
            subst h
            right; right; left
            rfl
          | ok b =>
            rw [hd] at h
            simp at h
        | false =>
          simp only [Bool.false_eq_true, if_false] at h
          cases hd : IndicatorResponse.UnmarshalJSON {} body with
          | error err =>
            rw [hd] at h
            simp only [Except.error.injEq, GoError.taapi.injEq] at h
            subst h
            right; right; right
            rfl
          | ok r =>
            rw [hd] at h
            simp at h

/-- The same holds of every `*Error` that `doPost` returns. -/
theorem Client.doPost_error (net : Network) (c : Client) (endpoint : String)
    (payload : GoMap) (e : Error) (h : c.doPost net endpoint payload = .error (.taapi e)) :
    e.Err ≠ none ∨ e.StatusCode ≥ 400 ∨
      e.Message = "failed to decode bulk response" ∨ e.Message = "failed to decode response" := by
  unfold Client.doPost at h
  simp only at h
  cases hm : jsonMarshalMap (payload.set "secret" (.str c.apiSecret)) with
  | error err =>
    rw [hm] at h
    simp only [Except.error.injEq, GoError.taapi.injEq] at h
    subst h
    left
    simp [NetworkError]
  | ok jsonData =>
    rw [hm] at h
    simp only at h
    cases hu : net.urlError (c.baseURL ++ endpoint) with
    | some err =>
      rw [hu] at h
      simp only [Except.error.injEq, GoError.taapi.injEq] at h
      subst h
      left
      simp [NetworkError]
    | none =>
      rw [hu] at h
      simp only at h
      cases hr : net.roundTrip
          { Method := "POST", URL := c.baseURL ++ endpoint,
            Header := [("Content-Type", "application/json"), ("Accept", "application/json")],
            Body := some jsonData } with
      | error err =>
        rw [hr] at h
        simp only [Except.error.injEq, GoError.taapi.injEq] at h
        subst h
        left
        simp [NetworkError]
      | ok resp =>
        rw [hr] at h
        exact Client.handleResponse_error c resp _ e h

/-- An invalid-argument error is never an error of `doPost`, unless its message
is that of a decode error. -/
theorem Client.doPost_ne_invalidArgument (net : Network) (c : Client) (endpoint : String)
    (payload : GoMap) (message : String)
    (h1 : message ≠ "failed to decode bulk response")
    (h2 : message ≠ "failed to decode response") :
    c.doPost net endpoint payload ≠ .error (.taapi (InvalidArgumentError message)) := by
  intro h
  rcases Client.doPost_error net c endpoint payload _ h with h | h | h | h
  · exact h rfl
  · simp [InvalidArgumentError] at h
  · exact h1 h
  · exact h2 h

/-! ## Direct requests: the parameters handed to the client -/

/-- The parameter set `Get` hands to the client, key by key: an entry of the
builder's bag if the bag has the key, else the required field of that name. -/
theorem DirectBuilder.get_params (b : DirectBuilder) (k : String) :
    ((((GoMap.make.set "exchange" (.str b.exchange)).set "symbol" (.str b.symbol)).set
        "interval" (.str b.interval)).merge b.params).get k
      = (b.params.get k).or
          (if k = "interval" then some (.str b.interval)
           else if k = "symbol" then some (.str b.symbol)
           else if k = "exchange" then some (.str b.exchange)
           else none) := by
  rw [GoMap.get_merge]
  simp only [GoMap.get_set, GoMap.get_make]

/-- C11, as stated, fails: for the valid builder with exchange "binance",
symbol "BTC/USDT", interval "1h", indicator "rsi" and the bag
`{"exchange": "kraken"}`, the parameter set handed to the client has
`exchange` equal to "kraken", not to the builder's field. -/
theorem direct_bag_overrides_exchange :
    ∃ params,
      (∀ doGet, DirectBuilder.Get doGet
          { exchange := "binance", symbol := "BTC/USDT", interval := "1h", indicator := "rsi",
            params := GoMap.make.set "exchange" (.str "kraken") }
        = doGet "/rsi" params) ∧
      params.get "exchange" = some (.str "kraken") :=
  ⟨_, fun _ => rfl, rfl⟩

/-- C11, amended: for every `DirectBuilder` that passes validation, `Get`
calls the client with the endpoint "/" followed by the indicator and a flat
parameter set that contains every entry of the parameter bag, and `exchange`,
`symbol` and `interval` equal to the builder's fields for each of these keys
that the bag does not hold; it has no other key. -/
theorem direct_params_bag_first (b : DirectBuilder) (hv : b.validate = none) :
    ∃ params,
      (∀ doGet, b.Get doGet = doGet ("/" ++ b.indicator) params) ∧
      (∀ k v, b.params.get k = some v → params.get k = some v) ∧
      (b.params.get "exchange" = none → params.get "exchange" = some (.str b.exchange)) ∧
      (b.params.get "symbol" = none → params.get "symbol" = some (.str b.symbol)) ∧
      (b.params.get "interval" = none → params.get "interval" = some (.str b.interval)) ∧
      (∀ k, k ≠ "exchange" → k ≠ "symbol" → k ≠ "interval" →
        params.get k = b.params.get k) := by
  refine ⟨(((GoMap.make.set "exchange" (.str b.exchange)).set "symbol" (.str b.symbol)).set
      "interval" (.str b.interval)).merge b.params,
    fun doGet => by simp only [DirectBuilder.Get, hv], ?_, ?_, ?_, ?_, ?_⟩
  · intro k v h
    rw [DirectBuilder.get_params, h]
    rfl
  · intro h
    rw [DirectBuilder.get_params, h]
    simp
  · intro h
    rw [DirectBuilder.get_params, h]
    simp
  · intro h
    rw [DirectBuilder.get_params, h]
    simp
  · intro k h1 h2 h3
    rw [DirectBuilder.get_params]
    simp [h1, h2, h3]

/-- Witness for C11: the builder of `TestDirectBuilderFluent` with the bag
`{"period": 14}`. -/
theorem direct_params_bag_first_witness :
    ∃ params,
      (∀ doGet, DirectBuilder.Get doGet
          { exchange := "binance", symbol := "BTC/USDT", interval := "1h", indicator := "rsi",
            params := GoMap.make.set "period" (.num 14) }
        = doGet ("/" ++ "rsi") params) ∧
      (∀ k v, (GoMap.make.set "period" (.num 14)).get k = some v → params.get k = some v) ∧
      ((GoMap.make.set "period" (.num 14)).get "exchange" = none →
        params.get "exchange" = some (.str "binance")) ∧
      ((GoMap.make.set "period" (.num 14)).get "symbol" = none →
        params.get "symbol" = some (.str "BTC/USDT")) ∧
      ((GoMap.make.set "period" (.num 14)).get "interval" = none →
        params.get "interval" = some (.str "1h")) ∧
      (∀ k, k ≠ "exchange" → k ≠ "symbol" → k ≠ "interval" →
        params.get k = (GoMap.make.set "period" (.num 14)).get k) :=
  direct_params_bag_first
    { exchange := "binance", symbol := "BTC/USDT", interval := "1h", indicator := "rsi",
      params := GoMap.make.set "period" (.num 14) } rfl

/-! ## Construct, bulk and manual builders -/

theorem ConstructBuilder.foldl_AddIndicator (calls : List (Indicator × GoMap))
    (b : ConstructBuilder) :
    (calls.foldl (fun b call => b.AddIndicator call.1 call.2) b)
      = { b with indicators := b.indicators
            ++ calls.map (fun call => ConstructBuilder.indicatorData call.1 call.2) } := by
  induction calls generalizing b with
  | nil => simp
  | cons call t ih =>
    rw [List.foldl_cons, ih]
    simp [ConstructBuilder.AddIndicator]

/-- C12: For every `ConstructBuilder`, `ToMap` fails with the invalid-argument
error "at least one indicator is required" exactly when the indicator sequence
is empty, and otherwise succeeds with a map whose `exchange`, `symbol`,
`interval` are the builder's values and whose `indicators` is the builder's
sequence of entries; for a builder made by `Construct` followed by
`AddIndicator` calls, that sequence is the entries of the calls, in the order
of the calls, so its length is the number of calls and `ToMap` fails exactly
when there was no call. -/
theorem construct_toMap (b : ConstructBuilder) (c : Client) (exchange : Exchange)
    (symbol : String) (interval : Interval) (calls : List (Indicator × GoMap)) :
    (b.ToMap = .error (InvalidArgumentError "at least one indicator is required")
      ↔ b.indicators = []) ∧
    (b.indicators = [] ∨
      ∃ m, b.ToMap = .ok m ∧
        m.get "exchange" = some (.str b.exchange) ∧
        m.get "symbol" = some (.str b.symbol) ∧
        m.get "interval" = some (.str b.interval) ∧
        m.get "indicators" = some (.arr (b.indicators.map GoMap.toJSON))) ∧
    ((calls.foldl (fun b call => b.AddIndicator call.1 call.2)
        (c.Construct exchange symbol interval)).indicators
      = calls.map (fun call => ConstructBuilder.indicatorData call.1 call.2)) ∧
    ((calls.foldl (fun b call => b.AddIndicator call.1 call.2)
        (c.Construct exchange symbol interval)).indicators.length = calls.length) ∧
    ((calls.foldl (fun b call => b.AddIndicator call.1 call.2)
        (c.Construct exchange symbol interval)).ToMap
        = .error (InvalidArgumentError "at least one indicator is required")
      ↔ calls = []) ∧
    (calls = [] ∨
      ∃ m, (calls.foldl (fun b call => b.AddIndicator call.1 call.2)
          (c.Construct exchange symbol interval)).ToMap = .ok m ∧
        m.get "exchange" = some (.str exchange.token) ∧
        m.get "symbol" = some (.str symbol) ∧
        m.get "interval" = some (.str interval.token) ∧
        m.get "indicators" = some (.arr (calls.map
          (fun call => (ConstructBuilder.indicatorData call.1 call.2).toJSON)))) := by
  have hgen : ∀ b : ConstructBuilder,
      (b.ToMap = .error (InvalidArgumentError "at least one indicator is required")
        ↔ b.indicators = []) ∧
      (b.indicators = [] ∨
        ∃ m, b.ToMap = .ok m ∧
          m.get "exchange" = some (.str b.exchange) ∧
          m.get "symbol" = some (.str b.symbol) ∧
          m.get "interval" = some (.str b.interval) ∧
          m.get "indicators" = some (.arr (b.indicators.map GoMap.toJSON))) := by
    intro b
    unfold ConstructBuilder.ToMap
    by_cases h : b.indicators = []
    · simp [h]
    · have hlen : ¬ b.indicators.length = 0 := fun h0 => h (List.length_eq_zero.1 h0)
      simp only [hlen, if_false]
      refine ⟨by simp [h], Or.inr ⟨_, rfl, ?_, ?_, ?_, ?_⟩⟩ <;>
        simp [GoMap.get_set, GoMap.get_make]
  have hfold := ConstructBuilder.foldl_AddIndicator calls (c.Construct exchange symbol interval)
  obtain ⟨h1, h2⟩ := hgen b
  obtain ⟨h3, h4⟩ := hgen (calls.foldl (fun b call => b.AddIndicator call.1 call.2)
    (c.Construct exchange symbol interval))
  rw [hfold] at h3 h4 ⊢
  simp only [Client.Construct, List.nil_append, List.map_eq_nil_iff, List.map_map,
    Exchange.String, Interval.String] at h3 h4 ⊢
  refine ⟨h1, h2, ?_, ?_, h3, h4⟩ <;> simp

/-- C13: For every `BulkBuilder` `b` and `ConstructBuilder` `c`, `AddConstruct(c)`
appends exactly one element, the map `ToMap(c)`, at the end of `b`'s construct
sequence when `c` has at least one indicator, and returns `b` unchanged when
`c` has no indicator; in both cases the earlier elements stay as they were. -/
theorem bulk_addConstruct (b : BulkBuilder) (c : ConstructBuilder) :
    (c.indicators = [] ∨
      ∃ m, c.ToMap = .ok m ∧ (b.AddConstruct c).constructs = b.constructs ++ [m]) ∧
    (c.indicators = [] → b.AddConstruct c = b) ∧
    ((b.AddConstruct c).constructs.take b.constructs.length = b.constructs) ∧
    ((b.AddConstruct c).constructs.length
      = b.constructs.length + (if c.indicators.length = 0 then 0 else 1)) := by
  unfold BulkBuilder.AddConstruct ConstructBuilder.ToMap
  by_cases h : c.indicators = []
  · simp [h]
  · have hlen : ¬ c.indicators.length = 0 := fun h0 => h (List.length_eq_zero.1 h0)
    simp [h, hlen]

theorem BulkBuilder.foldl_AddConstruct_empty (cs : List ConstructBuilder) (b : BulkBuilder)
    (h : ∀ x ∈ cs, x.indicators = []) :
    cs.foldl BulkBuilder.AddConstruct b = b := by
  induction cs generalizing b with
  | nil => rfl
  | cons x t ih =>
    have hx : b.AddConstruct x = b := by
      simp [BulkBuilder.AddConstruct, ConstructBuilder.ToMap, h x (List.mem_cons_self x t)]
    rw [List.foldl_cons, hx]
    exact ih b (fun y hy => h y (List.mem_cons_of_mem x hy))

/-- C14: For every `BulkBuilder`, `Execute` fails with the invalid-argument
error "at least one construct is required", whatever the client would answer,
when its construct sequence is empty; in particular the builder of `Bulk()` to
which only indicator-less constructs were added fails this way.  When the
sequence is not empty, `Execute` posts the payload `{construct: <the
sequence>}`, with no other key, to "/bulk", and its result is the client's:
the client's error, the client's bulk response, or the error "unexpected
response type".  With the client's own `doPost`, on every network, `Execute`
fails with that invalid-argument error exactly when the sequence is empty. -/
theorem bulk_execute (b : BulkBuilder) (c : Client) (cs : List ConstructBuilder) :
    (b.constructs = [] → ∀ doPost, b.Execute doPost
      = .error (.taapi (InvalidArgumentError "at least one construct is required"))) ∧
    ((∀ x ∈ cs, x.indicators = []) → ∀ doPost,
      (cs.foldl BulkBuilder.AddConstruct c.Bulk).Execute doPost
        = .error (.taapi (InvalidArgumentError "at least one construct is required"))) ∧
    (b.constructs ≠ [] →
      ∃ payload,
        payload.get "construct" = some (.arr (b.constructs.map GoMap.toJSON)) ∧
        (∀ k, k ≠ "construct" → payload.get k = none) ∧
        ∀ doPost,
          (∀ err, doPost "/bulk" payload = .error err → b.Execute doPost = .error err) ∧
          (∀ r, doPost "/bulk" payload = .ok (.bulk r) → b.Execute doPost = .ok r) ∧
          (∀ r, doPost "/bulk" payload = .ok (.indicator r) →
            b.Execute doPost = .error (.other "unexpected response type"))) ∧
    (∀ net : Network, b.Execute (c.doPost net)
        = .error (.taapi (InvalidArgumentError "at least one construct is required"))
      ↔ b.constructs = []) := by
  refine ⟨?_, ?_, ?_, ?_⟩
  · intro h doPost
    simp [BulkBuilder.Execute, h]
  · intro h doPost
    rw [BulkBuilder.foldl_AddConstruct_empty cs c.Bulk h]
    simp [BulkBuilder.Execute, Client.Bulk]
  rotate_left
  · intro net
    constructor
    · intro h
      by_contra hne
      have hlen : ¬ b.constructs.length = 0 := fun h0 => hne (List.length_eq_zero.1 h0)
      simp only [BulkBuilder.Execute, hlen, if_false] at h
      cases hp : c.doPost net "/bulk"
          (GoMap.make.set "construct" (.arr (b.constructs.map GoMap.toJSON))) with
      | error err =>
        rw [hp] at h
        simp only [Except.error.injEq] at h
        rw [h] at hp
        exact Client.doPost_ne_invalidArgument net c _ _ _ (by decide) (by decide) hp
      | ok result =>
        rw [hp] at h
        cases result <;> simp at h
    · intro h
      simp [BulkBuilder.Execute, h]
  · intro h
    have hlen : ¬ b.constructs.length = 0 := fun h0 => h (List.length_eq_zero.1 h0)
    refine ⟨GoMap.make.set "construct" (.arr (b.constructs.map GoMap.toJSON)), ?_, ?_, ?_⟩
    · simp [GoMap.get_set]
    · intro k hk
      simp [GoMap.get_set, GoMap.get_make, hk]
    · intro doPost
      refine ⟨?_, ?_, ?_⟩ <;> intro r hr <;> simp [BulkBuilder.Execute, hlen, hr]

theorem ManualBuilder.candles_loop (cs : List Candle) (pre : List (List JSON)) :
    (cs.enumFrom pre.length).foldl (fun acc ic => acc.set ic.1 ic.2.ToArray)
        (pre ++ List.replicate cs.length [])
      = pre ++ cs.map Candle.ToArray := by
  induction cs generalizing pre with
  | nil => simp
  | cons a t ih =>
    have h := ih (pre ++ [a.ToArray])
    simp only [List.length_append, List.length_singleton, List.append_assoc,
      List.singleton_append] at h
    simp only [List.enumFrom_cons, List.foldl_cons, List.length_cons, List.replicate_succ,
      List.map_cons]
    rw [List.set_append_right _ _ (le_refl _)]
    simpa using h

theorem ManualBuilder.WithCandleStructs_candles (b : ManualBuilder) (cs : List Candle) :
    (b.WithCandleStructs cs).candles = cs.map Candle.ToArray := by
  have h := ManualBuilder.candles_loop cs []
  simpa [ManualBuilder.WithCandleStructs, List.enum] using h

/-- C15: For every `ManualBuilder`, `Execute` fails with the invalid-argument
error "candles are required", whatever the client would answer, when the
candle sequence is empty, which is the case when it was never set, set to an
empty list by `WithCandles`, or built from an empty list by
`WithCandleStructs` (and only then: a non-empty list gives a non-empty
sequence).  With a non-empty sequence `Execute` raises no invalid-argument
error: it posts to "/manual" and its result is the client's error, the
client's indicator response, or the error "unexpected response type".  With
the client's own `doPost`, on every network, `Execute` fails with that
invalid-argument error exactly when the sequence is empty. -/
theorem manual_execute (b : ManualBuilder) (c : Client) (indicator : Indicator) :
    (b.candles = [] → ∀ doPost, b.Execute doPost
      = .error (.taapi (InvalidArgumentError "candles are required"))) ∧
    ((c.Manual indicator).candles = []) ∧
    (∀ cs, (b.WithCandles cs).candles = [] ↔ cs = []) ∧
    (∀ cs, (b.WithCandleStructs cs).candles = [] ↔ cs = []) ∧
    (b.candles ≠ [] →
      ∃ payload,
        ∀ doPost,
          (∀ err, doPost "/manual" payload = .error err → b.Execute doPost = .error err) ∧
          (∀ r, doPost "/manual" payload = .ok (.indicator r) → b.Execute doPost = .ok r) ∧
          (∀ r, doPost "/manual" payload = .ok (.bulk r) →
            b.Execute doPost = .error (.other "unexpected response type"))) ∧
    (∀ net : Network, b.Execute (c.doPost net)
        = .error (.taapi (InvalidArgumentError "candles are required"))
      ↔ b.candles = []) := by
  refine ⟨?_, rfl, ?_, ?_, ?_, ?_⟩
  rotate_right
  · intro net
    constructor
    · intro h
      by_contra hne
      have hlen : ¬ b.candles.length = 0 := fun h0 => hne (List.length_eq_zero.1 h0)
      simp only [ManualBuilder.Execute, hlen, if_false] at h
      cases hp : c.doPost net "/manual"
          (((GoMap.make.set "indicator" (.str b.indicator)).set "candles"
            (.arr (b.candles.map JSON.arr))).merge b.params) with
      | error err =>
        rw [hp] at h
        simp only [Except.error.injEq] at h
        rw [h] at hp
        exact Client.doPost_ne_invalidArgument net c _ _ _ (by decide) (by decide) hp
      | ok result =>
        rw [hp] at h
        cases result <;> simp at h
    · intro h
      simp [ManualBuilder.Execute, h]
  · intro h doPost
    simp [ManualBuilder.Execute, h]
  · intro cs
    simp [ManualBuilder.WithCandles]
  · intro cs
    rw [ManualBuilder.WithCandleStructs_candles]
    simp
  · intro h
    have hlen : ¬ b.candles.length = 0 := fun h0 => h (List.length_eq_zero.1 h0)
    refine ⟨((GoMap.make.set "indicator" (.str b.indicator)).set "candles"
      (.arr (b.candles.map JSON.arr))).merge b.params, ?_⟩
    intro doPost
    refine ⟨?_, ?_, ?_⟩ <;> intro r hr <;> simp [ManualBuilder.Execute, hlen, hr]

/-- C16: For every list `cs` of `Candle` records, `WithCandleStructs(cs)` sets
the builder's candle sequence to a list of the same length whose `i`-th
element is `ToArray` of `cs[i]`, the 6-element sequence
`[timestamp, open, high, low, close, volume]`, and leaves the indicator and
the parameter bag as they were; `Candle.ToArray` always has length 6. -/
theorem withCandleStructs_rows (b : ManualBuilder) (cs : List Candle) :
    (b.WithCandleStructs cs).candles.length = cs.length ∧
    (∀ i : Nat, (b.WithCandleStructs cs).candles[i]?
      = (cs[i]?).map (fun c => [JSON.num c.Timestamp, JSON.num c.Open, JSON.num c.High,
          JSON.num c.Low, JSON.num c.Close, JSON.num c.Volume])) ∧
    (b.WithCandleStructs cs).indicator = b.indicator ∧
    (b.WithCandleStructs cs).params = b.params ∧
    (∀ c : Candle, c.ToArray.length = 6) ∧
    (Candle.ToArray
        { Timestamp := 1609459200, Open := 28923.63, High := 28923.63,
          Low := 28923.63, Close := 28923.63, Volume := 0.0 }
      = [.num 1609459200, .num 28923.63, .num 28923.63, .num 28923.63, .num 28923.63,
          .num 0.0]) := by
  refine ⟨?_, ?_, rfl, rfl, fun _ => rfl, rfl⟩
  · rw [ManualBuilder.WithCandleStructs_candles, List.length_map]
  · intro i
    rw [ManualBuilder.WithCandleStructs_candles, List.getElem?_map]
    rfl

/-! ## Enumerations -/

/-- C17: For every string `s`, `Exchange(s).IsValid()` is true exactly when
`s` is one of the 18 exchange tokens, `Interval(s).IsValid()` exactly when `s`
is one of the 10 interval tokens, and `Indicator(s).IsValid()` exactly when
`s` is one of the 33 indicator tokens (each list has no repetition); the
comparison is exact, so "Binance", "1H" and "invalid" are rejected. -/
theorem isValid_exact_membership (s : String) :
    (Exchange.IsValid ⟨s⟩ = true ↔
      s ∈ ["binance", "binanceus", "binanceusdm", "bitfinex", "bitget", "bitmex",
        "bitstamp", "bybit", "coinbase", "cryptocom", "gateio", "huobi", "kraken",
        "kucoin", "mexc", "okx", "phemex", "poloniex"]) ∧
    (Interval.IsValid ⟨s⟩ = true ↔
      s ∈ ["1m", "5m", "15m", "30m", "1h", "2h", "4h", "12h", "1d", "1w"]) ∧
    (Indicator.IsValid ⟨s⟩ = true ↔
      s ∈ ["rsi", "macd", "ema", "sma", "bbands", "stoch", "stochrsi", "atr", "adx",
        "cci", "aroon", "mfi", "obv", "sar", "supertrend", "ichimoku", "vwap", "hma",
        "wma", "dema", "tema", "williams", "uo", "roc", "bbp", "ao", "cmf", "keltner",
        "donchian", "pivot", "fibonacci", "volume", "candle"]) ∧
    (["binance", "binanceus", "binanceusdm", "bitfinex", "bitget", "bitmex",
        "bitstamp", "bybit", "coinbase", "cryptocom", "gateio", "huobi", "kraken",
        "kucoin", "mexc", "okx", "phemex", "poloniex"].length = 18 ∧
      ["binance", "binanceus", "binanceusdm", "bitfinex", "bitget", "bitmex",
        "bitstamp", "bybit", "coinbase", "cryptocom", "gateio", "huobi", "kraken",
        "kucoin", "mexc", "okx", "phemex", "poloniex"].Nodup) ∧
    (["1m", "5m", "15m", "30m", "1h", "2h", "4h", "12h", "1d", "1w"].length = 10 ∧
      ["1m", "5m", "15m", "30m", "1h", "2h", "4h", "12h", "1d", "1w"].Nodup) ∧
    (["rsi", "macd", "ema", "sma", "bbands", "stoch", "stochrsi", "atr", "adx",
        "cci", "aroon", "mfi", "obv", "sar", "supertrend", "ichimoku", "vwap", "hma",
        "wma", "dema", "tema", "williams", "uo", "roc", "bbp", "ao", "cmf", "keltner",
        "donchian", "pivot", "fibonacci", "volume", "candle"].length = 33 ∧
      ["rsi", "macd", "ema", "sma", "bbands", "stoch", "stochrsi", "atr", "adx",
        "cci", "aroon", "mfi", "obv", "sar", "supertrend", "ichimoku", "vwap", "hma",
        "wma", "dema", "tema", "williams", "uo", "roc", "bbp", "ao", "cmf", "keltner",
        "donchian", "pivot", "fibonacci", "volume", "candle"].Nodup) ∧
    Exchange.IsValid ⟨"Binance"⟩ = false ∧ Exchange.IsValid ⟨"invalid"⟩ = false ∧
    Interval.IsValid ⟨"1H"⟩ = false ∧ Interval.IsValid ⟨"invalid"⟩ = false ∧
    Indicator.IsValid ⟨"RSI"⟩ = false ∧ Indicator.IsValid ⟨"invalid"⟩ = false := by
  refine ⟨?_, ?_, ?_, ⟨rfl, by decide⟩, ⟨rfl, by decide⟩, ⟨rfl, by decide⟩,
    by decide, by decide, by decide, by decide, by decide, by decide⟩
  · simp [or_assoc, Exchange.IsValid, ExchangeBinance, ExchangeBinanceUS, ExchangeBinanceUSDM,
      ExchangeBitfinex, ExchangeBitget, ExchangeBitmex, ExchangeBitstamp, ExchangeBybit,
      ExchangeCoinbase, ExchangeCryptoCom, ExchangeGateIO, ExchangeHuobi, ExchangeKraken,
      ExchangeKucoin, ExchangeMEXC, ExchangeOKX, ExchangePhemex, ExchangePoloniex]
  · simp [or_assoc, Interval.IsValid, Interval1m, Interval5m, Interval15m, Interval30m, Interval1h,
      Interval2h, Interval4h, Interval12h, Interval1d, Interval1w]
  · simp [or_assoc, Indicator.IsValid, IndicatorRSI, IndicatorMACD, IndicatorEMA, IndicatorSMA,
      IndicatorBBANDS, IndicatorSTOCH, IndicatorSTOCHRSI, IndicatorATR, IndicatorADX,
      IndicatorCCI, IndicatorAROON, IndicatorMFI, IndicatorOBV, IndicatorSAR,
      IndicatorSUPERTREND, IndicatorICHIMOKU, IndicatorVWAP, IndicatorHMA, IndicatorWMA,
      IndicatorDEMA, IndicatorTEMA, IndicatorWILLIAMS, IndicatorUO, IndicatorROC,
      IndicatorBBP, IndicatorAO, IndicatorCMF, IndicatorKELTNER, IndicatorDONCHIAN,
      IndicatorPIVOT, IndicatorFIBONACCI, IndicatorVOLUME, IndicatorCANDLE]

/-- C18: `Interval.Duration` is a total function that maps 1m, 5m, 15m, 30m,
1h, 2h, 4h, 12h, 1d, 1w to 1, 5, 15, 30, 60, 120, 240, 720, 1440 and 10080
minutes (of 60 000 000 000 nanoseconds each, all within the range of `int64`)
and every other string to zero; hence `Duration(i)` is non-zero exactly when
`IsValid(i)` is true. -/
theorem duration_table (s : String) :
    (List.map (fun t => Interval.Duration ⟨t⟩)
        ["1m", "5m", "15m", "30m", "1h", "2h", "4h", "12h", "1d", "1w"]
      = List.map (fun minutes : Int => minutes * 60000000000)
        [1, 5, 15, 30, 60, 120, 240, 720, 1440, 10080]) ∧
    (time.Minute = 60000000000) ∧
    (0 ≤ Interval.Duration ⟨s⟩ ∧ Interval.Duration ⟨s⟩ < 2 ^ 63) ∧
    (s ∉ ["1m", "5m", "15m", "30m", "1h", "2h", "4h", "12h", "1d", "1w"] →
      Interval.Duration ⟨s⟩ = 0) ∧
    (Interval.Duration ⟨s⟩ ≠ 0 ↔ Interval.IsValid ⟨s⟩ = true) := by
  have hcases : s ∈ ["1m", "5m", "15m", "30m", "1h", "2h", "4h", "12h", "1d", "1w"] ∨
      s ∉ ["1m", "5m", "15m", "30m", "1h", "2h", "4h", "12h", "1d", "1w"] := em _
  refine ⟨by decide, by decide, ?_, ?_, ?_⟩
  · rcases hcases with h | h
    · simp only [List.mem_cons, List.mem_singleton, List.not_mem_nil, or_false] at h
      rcases h with rfl | rfl | rfl | rfl | rfl | rfl | rfl | rfl | rfl | rfl <;> decide
    · simp only [List.mem_cons, List.mem_singleton, List.not_mem_nil, or_false, not_or] at h
      simp [Interval.Duration, Interval1m, Interval5m, Interval15m, Interval30m, Interval1h,
        Interval2h, Interval4h, Interval12h, Interval1d, Interval1w, h]
  · intro h
    simp only [List.mem_cons, List.mem_singleton, List.not_mem_nil, or_false, not_or] at h
    simp [Interval.Duration, Interval1m, Interval5m, Interval15m, Interval30m, Interval1h,
      Interval2h, Interval4h, Interval12h, Interval1d, Interval1w, h]
  · rcases hcases with h | h
    · simp only [List.mem_cons, List.mem_singleton, List.not_mem_nil, or_false] at h
      rcases h with rfl | rfl | rfl | rfl | rfl | rfl | rfl | rfl | rfl | rfl <;> decide
    · simp only [List.mem_cons, List.mem_singleton, List.not_mem_nil, or_false, not_or] at h
      simp [Interval.Duration, Interval.IsValid, Interval1m, Interval5m, Interval15m,
        Interval30m, Interval1h, Interval2h, Interval4h, Interval12h, Interval1d,
        Interval1w, h]

/-! ## Response handling -/

theorem decodeErrorData_get (body : Payload) (k : String) :
    (decodeErrorData body).get k = body.field k := by
  cases body with
  | malformed => rfl
  | text j =>
    cases j with
    | obj ms => exact GoMap.get_ofMembers ms k
    | _ => rfl
  | outOfRange j =>
    cases j with
    | obj ms => exact GoMap.get_ofMembers ms k
    | _ => rfl

/-- C19 at the failing input: for status 429 with the header
`Retry-After: 99999999999999999999` (a value `strconv.Atoi` reports as out of
range) and the body `{"error":"too many requests"}`, response handling returns
a rate-limit error whose `RetryAfter` is 9223372036854775807, neither 0 nor
the integer in the header.  On every other point the claim holds: every 429
response whose body was read gives a rate-limit error with status code 429,
`RetryAfter` 0 for an absent header and else the value `strconv.Atoi` returns,
the body's `error` string as message when there is one, and the parsed body;
with `Retry-After: 30` and that body, retry-after is 30 and the message is
"too many requests". -/
theorem rate_limit_retry_after_out_of_range (c : Client) (isBulk : Bool)
    (header : String → String) (body : Payload) :
    (∃ e, c.handleResponse
        { StatusCode := 429,
          Header := fun k => if k = "Retry-After" then "99999999999999999999" else "",
          Body := .ok (.text (.obj [("error", .str "too many requests")])) } isBulk
        = .error (.rateLimit e) ∧
      e.RetryAfter = 9223372036854775807 ∧ e.StatusCode = 429 ∧
      e.Message = "too many requests") ∧
    (strconvAtoi "99999999999999999999" = (9223372036854775807, false)) ∧
    (∃ e, c.handleResponse { StatusCode := 429, Header := header, Body := .ok body } isBulk
        = .error (.rateLimit e) ∧
      e.StatusCode = 429 ∧
      e.RetryAfter
        = (if header "Retry-After" = "" then 0 else (strconvAtoi (header "Retry-After")).1) ∧
      (∀ m, body.field "error" = some (.str m) → e.Message = m) ∧
      (JSON.isString (body.field "error") = false → e.Message = "rate limit exceeded") ∧
      (∀ k, e.Response.get k = body.field k)) ∧
    (strconvAtoi "" = (0, false) ∧ strconvAtoi "Wed, 21 Oct 2015 07:28:00 GMT" = (0, false) ∧
      strconvAtoi "30" = (30, true)) ∧
    (∃ e, c.handleResponse
        { StatusCode := 429,
          Header := fun k => if k = "Retry-After" then "30" else "",
          Body := .ok (.text (.obj [("error", .str "too many requests")])) } isBulk
        = .error (.rateLimit e) ∧
      e.RetryAfter = 30 ∧ e.StatusCode = 429 ∧ e.Message = "too many requests") := by
  refine ⟨⟨_, rfl, ?_, rfl, rfl⟩, by decide, ?_, by decide, ⟨_, rfl, ?_, rfl, rfl⟩⟩
  · show (if ("99999999999999999999" != "") = true
        then (strconvAtoi "99999999999999999999").1 else 0) = 9223372036854775807
    decide
  · unfold Client.handleResponse
    simp only [http.StatusTooManyRequests, if_true]
    refine ⟨_, rfl, rfl, ?_, ?_, ?_, fun k => decodeErrorData_get body k⟩
    · by_cases hh : header "Retry-After" = "" <;> simp [NewRateLimitError, hh]
    · intro m hm
      simp [NewRateLimitError, decodeErrorData_get, hm, JSON.asString]
    · intro he
      have he' : JSON.asString (body.field "error") = none := by
        simpa [JSON.isString] using he
      simp [NewRateLimitError, decodeErrorData_get, he']
  · show (if ("30" != "") = true then (strconvAtoi "30").1 else 0) = 30
    decide

/-- C20: For every HTTP response with a status of at least 400 other than 429
whose body was read, on either kind of endpoint, response handling returns an
API error that carries that status code and the parsed error body (the body's
object, nothing when the body is not a JSON object), and whose message is the
body's `error` field if that is a string, otherwise the body's `message` field
if that is a string, otherwise "unknown API error". -/
theorem api_error_message (c : Client) (status : Int) (header : String → String)
    (body : Payload) (isBulk : Bool) (h400 : status ≥ 400) (h429 : status ≠ 429) :
    ∃ e, c.handleResponse { StatusCode := status, Header := header, Body := .ok body } isBulk
        = .error (.taapi e) ∧
      e.StatusCode = status ∧ e.Err = none ∧
      (∀ k, e.Response.get k = body.field k) ∧
      (∀ m, body.field "error" = some (.str m) → e.Message = m) ∧
      (JSON.isString (body.field "error") = false →
        ∀ m, body.field "message" = some (.str m) → e.Message = m) ∧
      (JSON.isString (body.field "error") = false →
        JSON.isString (body.field "message") = false → e.Message = "unknown API error") := by
  unfold Client.handleResponse
  simp only [http.StatusTooManyRequests, h429, if_false, h400, if_true]
  refine ⟨_, rfl, rfl, rfl, fun k => decodeErrorData_get body k, ?_, ?_, ?_⟩
  · intro m hm
    simp [APIError, decodeErrorData_get, hm, JSON.asString]
  · intro he m hm
    have he' : JSON.asString (body.field "error") = none := by
      simpa [JSON.isString] using he
    simp only [APIError, decodeErrorData_get, he']
    simp [hm, JSON.asString]
  · intro he hm
    have he' : JSON.asString (body.field "error") = none := by
      simpa [JSON.isString] using he
    have hm' : JSON.asString (body.field "message") = none := by
      simpa [JSON.isString] using hm
    simp [APIError, decodeErrorData_get, he', hm']

/-- Witness for C20: status 400 with the body `{"message":"bad symbol"}` on a
single endpoint. -/
theorem api_error_message_witness :
    ∃ e, Client.handleResponse { apiSecret := "s", baseURL := "https://api.taapi.io" }
        { StatusCode := 400, Header := fun _ => "",
          Body := .ok (.text (.obj [("message", .str "bad symbol")])) } false
        = .error (.taapi e) ∧
      e.StatusCode = 400 ∧ e.Err = none ∧
      (∀ k, e.Response.get k
        = (Payload.text (.obj [("message", .str "bad symbol")])).field k) ∧
      (∀ m, (Payload.text (.obj [("message", .str "bad symbol")])).field "error"
        = some (.str m) → e.Message = m) ∧
      (JSON.isString ((Payload.text (.obj [("message", .str "bad symbol")])).field "error")
          = false →
        ∀ m, (Payload.text (.obj [("message", .str "bad symbol")])).field "message"
          = some (.str m) → e.Message = m) ∧
      (JSON.isString ((Payload.text (.obj [("message", .str "bad symbol")])).field "error")
          = false →
        JSON.isString ((Payload.text (.obj [("message", .str "bad symbol")])).field "message")
          = false → e.Message = "unknown API error") :=
  api_error_message _ 400 _ _ false (by decide) (by decide)

/-! ## Lemmas on query values and requests -/

theorem Values.lookup_filter_other (q : Values) (k k' : String) :
    (q.filter (fun e => e.1 != k)).lookup k' = if k' = k then none else q.lookup k' := by
  induction q with
  | nil => simp
  | cons e t ih =>
    obtain ⟨a, v⟩ := e
    by_cases hak : a = k
    · subst hak
      have hf : ((a, v).1 != a) = false := by simp
      rw [List.filter_cons, hf, if_neg (by simp), ih]
      by_cases hk : k' = a
      · simp [hk]
      · have : (k' == a) = false := by simpa using hk
        simp [hk, List.lookup_cons, this]
    · have hf : ((a, v).1 != k) = true := by simpa using hak
      rw [List.filter_cons, hf, if_pos rfl]
      by_cases hk : k' = a
      · subst hk
        simp [hak]
      · have : (k' == a) = false := by simpa using hk
        rw [List.lookup_cons, this, List.lookup_cons, this, ih]

theorem Values.lookup_Set (q : Values) (k v k' : String) :
    (q.Set k v).lookup k' = if k' = k then some [v] else q.lookup k' := by
  unfold Values.Set
  rw [List.lookup_append, Values.lookup_filter_other]
  by_cases hk : k' = k
  · simp [hk]
  · have : (k' == k) = false := by simpa using hk
    simp [hk, List.lookup_cons, this]

theorem Values.lookup_foldl_Set (f : JSON → String) (es : List (String × JSON))
    (h : (es.map Prod.fst).Nodup) (q : Values) (k : String) :
    (es.foldl (fun q e => q.Set e.1 (f e.2)) q).lookup k
      = match es.lookup k with
        | some v => some [f v]
        | none => q.lookup k := by
  induction es generalizing q with
  | nil => rfl
  | cons e t ih =>
    obtain ⟨a, v⟩ := e
    rw [List.map_cons, List.nodup_cons] at h
    rw [List.foldl_cons, ih h.2, Values.lookup_Set]
    by_cases hk : k = a
    · subst hk
      have hnone : List.lookup k t = none := by
        rw [List.lookup_eq_none_iff]
        intro p hp
        have : p.1 ≠ k := fun hpe => h.1 (hpe ▸ List.mem_map.2 ⟨p, hp, rfl⟩)
        simpa using (Ne.symm this)
      simp [hnone]
    · rw [GoMap.lookup_cons_ne a k v t hk]
      simp [hk]

/-- The `secret` query value of the request `doGet` builds: the printed value
of the bag's entry `secret` when the bag has one, else the client's secret. -/
theorem Client.getRequest_secret (lib : StdLib) (net : Network) (c : Client)
    (endpoint : String) (params : GoMap) (req : HttpRequest)
    (h : c.getRequest lib net endpoint params = .ok req) :
    req.Query.Get "secret"
      = match params.get "secret" with
        | some v => sprintV lib v
        | none => c.apiSecret := by
  unfold Client.getRequest at h
  simp only at h
  split at h
  · simp at h
  · split at h
    · simp at h
    · simp only [Except.ok.injEq] at h
      subst h
      unfold Values.Get
      simp only
      rw [Values.lookup_foldl_Set (sprintV lib) _ params.entries_nodup, Values.lookup_Set]
      unfold GoMap.get
      cases List.lookup "secret" params.entries <;> simp

/-- `doPost` sends the request of `postRequest`. -/
theorem Client.doPost_eq (net : Network) (c : Client) (endpoint : String) (payload : GoMap) :
    c.doPost net endpoint payload
      = match c.postRequest net endpoint payload with
        | .error err => .error err
        | .ok req =>
          match net.roundTrip req with
          | .error err => .error (.taapi (NetworkError "request failed" err))
          | .ok resp => c.handleResponse resp (endpoint == "/bulk") := by
  unfold Client.doPost Client.postRequest
  simp only
  cases jsonMarshalMap (payload.set "secret" (.str c.apiSecret)) with
  | error err => rfl
  | ok jsonData =>
    simp only
    cases net.urlError (c.baseURL ++ endpoint) with
    | some err => rfl
    | none => rfl

/-- The body of the request `doPost` builds: the payload with `secret` set to
the client's secret, as the last assignment. -/
theorem Client.postRequest_body (net : Network) (c : Client) (endpoint : String)
    (payload : GoMap) (req : HttpRequest)
    (h : c.postRequest net endpoint payload = .ok req) :
    ∃ body, req.Body = some body ∧ req.Method = "POST" ∧
      ∀ k, body.field k = if k = "secret" then some (.str c.apiSecret) else payload.get k := by
  unfold Client.postRequest at h
  simp only at h
  have hmade := jsonMarshalMap_made _ (GoMap.set_made payload "secret" (.str c.apiSecret))
  rw [hmade] at h
  simp only at h
  cases hu : net.urlError (c.baseURL ++ endpoint) with
  | some err => rw [hu] at h; simp at h
  | none =>
    rw [hu] at h
    simp only [Except.ok.injEq] at h
    subst h
    refine ⟨_, rfl, rfl, ?_⟩
    intro k
    show (JSON.obj _).field k = _
    rw [GoMap.field_entries, GoMap.get_set]

/-! ## Status policy and decode errors of response handling -/

/-- C21, as stated, fails: a response with status 300 and the body
`{"value":65.5}` on a single endpoint is not answered with an API error
carrying 300; its body is decoded into an `IndicatorResponse`. -/
theorem status_300_is_decoded :
    ∃ r, Client.handleResponse { apiSecret := "test_secret", baseURL := "https://api.taapi.io" }
        { StatusCode := 300, Header := fun _ => "",
          Body := .ok (.text (.obj [("value", .num 65.5)])) } false
        = .ok (.indicator r) ∧
      r.Data.get "value" = some (.num 65.5) :=
  ⟨_, rfl, rfl⟩

/-- C21, amended: for every HTTP response whose body was read, a status of at
least 400 other than 429 gives an API error carrying that status code, status
429 gives a rate-limit error, and every status below 400, 2xx or not, has its
body decoded into the endpoint's response type (a bulk response for the bulk
endpoint, an indicator response otherwise), a body that does not decode
giving the decode error with status code 0. -/
theorem status_policy (c : Client) (status : Int) (header : String → String)
    (body : Payload) :
    (status ≥ 400 → status ≠ 429 → ∀ isBulk,
      ∃ e, c.handleResponse { StatusCode := status, Header := header, Body := .ok body } isBulk
          = .error (.taapi e) ∧ e.StatusCode = status) ∧
    (status = 429 → ∀ isBulk,
      ∃ e, c.handleResponse { StatusCode := status, Header := header, Body := .ok body } isBulk
          = .error (.rateLimit e)) ∧
    (status < 400 →
      (∀ b, BulkResponse.UnmarshalJSON {} body = .ok b →
        c.handleResponse { StatusCode := status, Header := header, Body := .ok body } true
          = .ok (.bulk b)) ∧
      (∀ err, BulkResponse.UnmarshalJSON {} body = .error err →
        c.handleResponse { StatusCode := status, Header := header, Body := .ok body } true
          = .error (.taapi (APIError 0 "failed to decode bulk response" .nil))) ∧
      (∀ r, IndicatorResponse.UnmarshalJSON {} body = .ok r →
        c.handleResponse { StatusCode := status, Header := header, Body := .ok body } false
          = .ok (.indicator r)) ∧
      (∀ err, IndicatorResponse.UnmarshalJSON {} body = .error err →
        c.handleResponse { StatusCode := status, Header := header, Body := .ok body } false
          = .error (.taapi (APIError 0 "failed to decode response" .nil)))) := by
  refine ⟨?_, ?_, ?_⟩
  · intro h400 h429 isBulk
    unfold Client.handleResponse
    simp only [http.StatusTooManyRequests, h429, if_false, h400, if_true]
    exact ⟨_, rfl, rfl⟩
  · intro h429 isBulk
    unfold Client.handleResponse
    simp only [http.StatusTooManyRequests, h429, if_true]
    exact ⟨_, rfl⟩
  · intro hlt
    have h429 : status ≠ 429 := by omega
    have h400 : ¬ status ≥ 400 := by omega
    refine ⟨?_, ?_, ?_, ?_⟩ <;> intro x hx <;>
      simp [Client.handleResponse, http.StatusTooManyRequests, h429, h400, hx]

/-- C28 at the failing inputs: for status 200 with a body that is not valid
JSON on a single endpoint, and for status 200 with the body `{}` on the bulk
endpoint, the decode error that response handling returns has no cause:
`Unwrap()` is nil.  So it is for every decode error of a status below 400,
whereas every network error wraps its cause. -/
theorem decode_error_has_no_cause (c : Client) (status : Int) (header : String → String)
    (body : Payload) (isBulk : Bool) :
    (∃ e, c.handleResponse
        { StatusCode := 200, Header := fun _ => "", Body := .ok .malformed } false
        = .error (.taapi e) ∧ e.Unwrap = none ∧ e.Message = "failed to decode response") ∧
    (∃ e, c.handleResponse
        { StatusCode := 200, Header := fun _ => "", Body := .ok (.text (.obj [])) } true
        = .error (.taapi e) ∧ e.Unwrap = none ∧ e.Message = "failed to decode bulk response") ∧
    (status < 400 → ∀ e,
      c.handleResponse { StatusCode := status, Header := header, Body := .ok body } isBulk
        = .error (.taapi e) → e.Unwrap = none) ∧
    (∀ message cause, (NetworkError message cause).Unwrap = some cause) := by
  refine ⟨⟨_, rfl, rfl, rfl⟩, ⟨_, rfl, rfl, rfl⟩, ?_, fun _ _ => rfl⟩
  intro hlt e he
  have h429 : status ≠ 429 := by omega
  have h400 : ¬ status ≥ 400 := by omega
  unfold Client.handleResponse at he
  simp only [http.StatusTooManyRequests, h429, if_false, h400] at he
  cases isBulk with
  | true =>
    simp only [if_true] at he
    split at he
    · simp only [Except.error.injEq, GoError.taapi.injEq] at he
      subst he
      rfl
    · simp at he
  | false =>
    simp only [Bool.false_eq_true, if_false] at he
    split at he
    · simp only [Except.error.injEq, GoError.taapi.injEq] at he
      subst he
      rfl
    · simp at he

/-! ## Totality of decoding, bulk counts, and the second round trip -/

/-- C24 at the failing input: the payload `{"value":1e999}` is a well-formed
JSON object, and decoding it into an `IndicatorResponse` fails: the number
literal is outside the range of `float64`, `json.Unmarshal` returns an
`*UnmarshalTypeError` for it, and `UnmarshalJSON` returns that error. -/
theorem decode_rejects_out_of_range_number :
    Payload.isObject (.outOfRange (.obj [("value", .null)])) = true ∧
    IndicatorResponse.UnmarshalJSON {} (.outOfRange (.obj [("value", .null)]))
      = .error .unmarshalTypeError :=
  ⟨rfl, rfl⟩

/-- C24, amended: Decoding a payload into an `IndicatorResponse` fails only if
the payload is not a well-formed JSON object or holds a number literal outside
the range of `float64`: for every JSON object whose number literals are within
that range, whatever its keys and values, and for every receiver, decoding
succeeds, also with a non-string `indicator` or `id` (which stay in `Data`); a
failure occurs exactly for a payload that is not valid JSON, is a JSON value
other than an object or `null`, or holds a number literal outside the range. -/
theorem decode_in_range_object_succeeds (r : IndicatorResponse) :
    (∀ ms, ∃ r', r.UnmarshalJSON (.text (.obj ms)) = .ok r') ∧
    (∀ data err, r.UnmarshalJSON data = .error err → ∀ ms, data ≠ .text (.obj ms)) ∧
    (∀ data, (∃ err, r.UnmarshalJSON data = .error err) ↔
      (data = .malformed ∨
        (∃ j, data = .text j ∧ j.isObject = false ∧ j.isNull = false) ∨
        ∃ j, data = .outOfRange j)) ∧
    (∀ j, r.UnmarshalJSON (.outOfRange j) = .error .unmarshalTypeError) ∧
    (∃ r', IndicatorResponse.UnmarshalJSON {}
        (.text (.obj [("indicator", .num 5), ("id", .bool true), ("value", .arr [.null])]))
        = .ok r' ∧
      r'.Indicator = "" ∧ r'.ID = "" ∧
      r'.Data.get "indicator" = some (.num 5) ∧ r'.Data.get "id" = some (.bool true)) := by
  have hobj : ∀ ms, ∃ r', r.UnmarshalJSON (.text (.obj ms)) = .ok r' := by
    intro ms
    obtain ⟨r', hr', _⟩ :=
      IndicatorResponse.UnmarshalJSON_of_raw r (.text (.obj ms)) (GoMap.ofMembers ms) rfl
    exact ⟨r', hr'⟩
  have hnull : ∃ r', r.UnmarshalJSON (.text .null) = .ok r' := by
    obtain ⟨r', hr', _⟩ := IndicatorResponse.UnmarshalJSON_of_raw r (.text .null) .nil rfl
    exact ⟨r', hr'⟩
  refine ⟨hobj, ?_, ?_, fun _ => rfl, ⟨_, rfl, rfl, rfl, rfl, rfl⟩⟩
  · intro data err herr ms hdata
    obtain ⟨r', hr'⟩ := hobj ms
    rw [hdata, hr'] at herr
    simp at herr
  · intro data
    constructor
    · rintro ⟨err, herr⟩
      cases data with
      | malformed => exact Or.inl rfl
      | outOfRange j => exact Or.inr (Or.inr ⟨j, rfl⟩)
      | text j =>
        right
        left
        refine ⟨j, rfl, ?_⟩
        cases j with
        | obj ms =>
          obtain ⟨r', hr'⟩ := hobj ms
          rw [hr'] at herr
          simp at herr
        | null =>
          obtain ⟨r', hr'⟩ := hnull
          rw [hr'] at herr
          simp at herr
        | _ => exact ⟨rfl, rfl⟩
    · rintro (rfl | ⟨j, rfl, ho, hn⟩ | ⟨j, rfl⟩)
      · exact ⟨.syntaxError, rfl⟩
      · cases j <;> simp [JSON.isObject, JSON.isNull] at ho hn <;>
          exact ⟨.unmarshalTypeError, rfl⟩
      · exact ⟨.unmarshalTypeError, rfl⟩

/-- Every turn of the loop of `BulkResponse.UnmarshalJSON` appends a response:
neither `continue` is ever taken. -/
theorem BulkResponse.unmarshalItem_never_skips (acc : List IndicatorResponse) (item : GoMap) :
    ∃ r, BulkResponse.unmarshalItem acc item = acc ++ [r] := by
  obtain ⟨p, hp, hback⟩ := jsonUnmarshalMap_marshal item
  obtain ⟨r, hr, _⟩ := IndicatorResponse.UnmarshalJSON_of_raw {} p item hback
  refine ⟨r, ?_⟩
  unfold BulkResponse.unmarshalItem
  rw [hp]
  simp only
  rw [hr]

theorem BulkResponse.foldl_unmarshalItem_length (raw : List GoMap)
    (acc : List IndicatorResponse) :
    (raw.foldl BulkResponse.unmarshalItem acc).length = acc.length + raw.length := by
  induction raw generalizing acc with
  | nil => simp
  | cons m t ih =>
    obtain ⟨r, hr⟩ := BulkResponse.unmarshalItem_never_skips acc m
    rw [List.foldl_cons, hr, ih]
    simp
    omega

theorem jsonUnmarshalElems_length (xs : List JSON) (raw : List GoMap)
    (h : jsonUnmarshalElems xs = .ok raw) : raw.length = xs.length := by
  induction xs generalizing raw with
  | nil =>
    simp only [jsonUnmarshalElems, Except.ok.injEq] at h
    subst h
    rfl
  | cons x t ih =>
    simp only [jsonUnmarshalElems] at h
    split at h
    · simp at h
    · split at h
      · simp at h
      · rename_i ms hms
        simp only [Except.ok.injEq] at h
        subst h
        simp [ih ms hms]

/-- C29: Whenever decoding a payload as a `BulkResponse` succeeds, the payload
is `null` (and `Count()` is 0) or a JSON array, and then `Count()` equals the
number of elements of the array, `null` elements included, all of them
objects or `null`: no turn of the loop takes a skip branch, so no element is
dropped; an array with an element that is neither an object nor `null` makes
the whole decode fail. -/
theorem bulk_count_is_array_length (b0 : BulkResponse) (data : Payload) :
    ((∃ err, b0.UnmarshalJSON data = .error err) ∨
      ∃ b, b0.UnmarshalJSON data = .ok b ∧
        ((data = .text .null ∧ b.Count = 0) ∨
          ∃ xs, data = .text (.arr xs) ∧ b.Count = xs.length ∧
            xs.all (fun x => x.isObject || x.isNull) = true)) ∧
    (∀ acc item, ∃ r, BulkResponse.unmarshalItem acc item = acc ++ [r]) ∧
    (∀ xs : List JSON, xs.all (fun x => x.isObject || x.isNull) = false →
      b0.UnmarshalJSON (.text (.arr xs)) = .error .unmarshalTypeError) ∧
    (∃ b, BulkResponse.UnmarshalJSON {}
        (.text (.arr [.null, .obj [("id", .str "a")], .null])) = .ok b ∧ b.Count = 3) ∧
    (BulkResponse.UnmarshalJSON {} (.text (.arr [.obj [("id", .str "a")], .str "oops"]))
      = .error .unmarshalTypeError) := by
  refine ⟨?_, BulkResponse.unmarshalItem_never_skips, ?_, ⟨_, rfl, rfl⟩, rfl⟩
  · cases hd : b0.UnmarshalJSON data with
    | error err => exact Or.inl ⟨err, rfl⟩
    | ok b =>
      right
      refine ⟨b, rfl, ?_⟩
      unfold BulkResponse.UnmarshalJSON at hd
      cases data with
      | malformed => simp [jsonUnmarshalMaps] at hd
      | outOfRange j => simp [jsonUnmarshalMaps] at hd
      | text j =>
        cases j with
        | null =>
          left
          simp only [jsonUnmarshalMaps, Except.ok.injEq] at hd
          subst hd
          exact ⟨rfl, rfl⟩
        | arr xs =>
          right
          refine ⟨xs, rfl, ?_, ?_⟩
          · simp only [jsonUnmarshalMaps] at hd
            split at hd
            · simp at hd
            · rename_i raw hraw
              simp only [Except.ok.injEq] at hd
              subst hd
              simp [BulkResponse.Count, BulkResponse.foldl_unmarshalItem_length,
                jsonUnmarshalElems_length xs raw hraw]
          · cases hall : xs.all (fun x => x.isObject || x.isNull) with
            | true => rfl
            | false =>
              simp only [jsonUnmarshalMaps, BulkResponse.elems_error xs hall] at hd
              simp at hd
        | _ => simp [jsonUnmarshalMaps] at hd
  · intro xs hall
    unfold BulkResponse.UnmarshalJSON
    simp only [jsonUnmarshalMaps, BulkResponse.elems_error xs hall]

/-- C30: For every `IndicatorResponse` `r` whose `Data` has neither the key
`indicator` nor the key `id`, encoding `r` succeeds and decoding the result
into a fresh `IndicatorResponse` yields the `Indicator` and `ID` of `r` and a
`Data` with the same value as `r`'s under every key; and for every response,
when `Data` does hold the key `indicator` or `id`, the encoded object has the
`Data` value under that key, not the field. -/
theorem roundtrip_decode_encode (r : IndicatorResponse)
    (hind : r.Data.get "indicator" = none) (hid : r.Data.get "id" = none) :
    (∃ p r', r.MarshalJSON = .ok p ∧
      IndicatorResponse.UnmarshalJSON {} p = .ok r' ∧
      r'.Indicator = r.Indicator ∧ r'.ID = r.ID ∧
      ∀ k, r'.Data.get k = r.Data.get k) ∧
    (∀ (s : IndicatorResponse) (k : String) (v : JSON), (k = "indicator" ∨ k = "id") →
      s.Data.get k = some v →
      ∃ ms, s.MarshalJSON = .ok (.text (.obj ms)) ∧ (JSON.obj ms).field k = some v) := by
  constructor
  · obtain ⟨ms, hm, hfield⟩ := IndicatorResponse.MarshalJSON_fields r
    obtain ⟨r', hr', hi, hd, hdata⟩ :=
      IndicatorResponse.UnmarshalJSON_of_raw {} (.text (.obj ms)) (GoMap.ofMembers ms) rfl
    simp only [GoMap.get_ofMembers, hfield] at hi hd hdata
    have hne : ("indicator" : String) ≠ "id" := by decide
    refine ⟨_, r', hm, hr', ?_, ?_, ?_⟩
    · rw [hi, hind]
      by_cases h : r.Indicator = "" <;> simp [hne, h, JSON.asString]
    · rw [hd, hid]
      by_cases h : r.ID = "" <;> simp [h, JSON.asString]
    · intro k
      rw [hdata]
      by_cases hk2 : k = "id"
      · subst hk2
        rw [hid]
        by_cases h : r.ID = "" <;> simp [h, JSON.isString, JSON.asString]
      · by_cases hk1 : k = "indicator"
        · subst hk1
          rw [hind]
          by_cases h : r.Indicator = "" <;> simp [hne, h, JSON.isString, JSON.asString]
        · simp [hk1, hk2]
  · intro s k v _ hv
    obtain ⟨ms, hm, hfield⟩ := IndicatorResponse.MarshalJSON_fields s
    exact ⟨ms, hm, by rw [hfield, hv]; rfl⟩

/-- Witness for C30: the response of `TestIndicatorResponseMarshal`, with
`Indicator` "rsi", `ID` "test_id" and `Data` `{"value": 65.5}`. -/
theorem roundtrip_decode_encode_witness :
    (∃ p r', IndicatorResponse.MarshalJSON
        { Indicator := "rsi", ID := "test_id", Data := GoMap.make.set "value" (.num 65.5) }
        = .ok p ∧
      IndicatorResponse.UnmarshalJSON {} p = .ok r' ∧
      r'.Indicator = "rsi" ∧ r'.ID = "test_id" ∧
      ∀ k, r'.Data.get k = (GoMap.make.set "value" (.num 65.5)).get k) ∧
    (∀ (s : IndicatorResponse) (k : String) (v : JSON), (k = "indicator" ∨ k = "id") →
      s.Data.get k = some v →
      ∃ ms, s.MarshalJSON = .ok (.text (.obj ms)) ∧ (JSON.obj ms).field k = some v) :=
  roundtrip_decode_encode
    { Indicator := "rsi", ID := "test_id", Data := GoMap.make.set "value" (.num 65.5) }
    rfl rfl

/-! ## Setters of the direct builder, error helpers, indicator entries -/

theorem DirectBuilder.initParams_get (b : DirectBuilder) (k : String) :
    b.initParams.params.get k = b.params.get k := by
  unfold DirectBuilder.initParams
  cases h : b.params with
  | nil => rfl
  | mk es hes => simp [h]

theorem DirectBuilder.initParams_fields (b : DirectBuilder) :
    b.initParams.exchange = b.exchange ∧ b.initParams.symbol = b.symbol ∧
      b.initParams.interval = b.interval ∧ b.initParams.indicator = b.indicator := by
  unfold DirectBuilder.initParams
  cases b.params <;> exact ⟨rfl, rfl, rfl, rfl⟩

theorem getLast?_getD_cons (x d : String) (l : List String) :
    ((x :: l).getLast?).getD d = (l.getLast?).getD x := by
  cases l with
  | nil => rfl
  | cons y t =>
    rw [List.getLast?_cons_cons]
    cases h : (y :: t).getLast? with
    | none => simp at h
    | some z => rfl

/-- After a sequence of setter calls a field holds the argument of the last
call that sets it, or its old value when there is no such call. -/
theorem DirectBuilder.foldl_call_field (arg : DirectCall → Option String)
    (field : DirectBuilder → String)
    (hset : ∀ (b : DirectBuilder) c x, arg c = some x → field (b.call c) = x)
    (hkeep : ∀ (b : DirectBuilder) c, arg c = none → field (b.call c) = field b)
    (calls : List DirectCall) (b : DirectBuilder) :
    field (calls.foldl DirectBuilder.call b) = ((calls.filterMap arg).getLast?).getD (field b) := by
  induction calls generalizing b with
  | nil => rfl
  | cons c t ih =>
    rw [List.foldl_cons, ih]
    cases hc : arg c with
    | none => rw [List.filterMap_cons_none hc, hkeep b c hc]
    | some x => rw [List.filterMap_cons_some hc, hset b c x hc, getLast?_getD_cons]

/-- C25: For every `DirectBuilder`, each of the setters `Exchange`, `Symbol`,
`Interval`, `Indicator` sets its own field to the given token and leaves the
other three fields and the parameter bag as they were, so after any sequence
of setter calls each field holds the argument of the last call for that field
(its old value if there was none); `WithParam(k, v)` and `WithParams(m)` leave
the four fields as they were, set the given keys (overwriting an earlier
value) and keep every other key of the bag, also when the bag was nil. -/
theorem direct_setters_frame (b : DirectBuilder) (exchange : Exchange) (symbol : String)
    (interval : Interval) (indicator : Indicator) (key : String) (value : JSON)
    (params : GoMap) (calls : List DirectCall) :
    ((b.Exchange exchange).exchange = exchange.token ∧
      (b.Exchange exchange).symbol = b.symbol ∧ (b.Exchange exchange).interval = b.interval ∧
      (b.Exchange exchange).indicator = b.indicator ∧
      (b.Exchange exchange).params = b.params) ∧
    ((b.Symbol symbol).symbol = symbol ∧
      (b.Symbol symbol).exchange = b.exchange ∧ (b.Symbol symbol).interval = b.interval ∧
      (b.Symbol symbol).indicator = b.indicator ∧ (b.Symbol symbol).params = b.params) ∧
    ((b.Interval interval).interval = interval.token ∧
      (b.Interval interval).exchange = b.exchange ∧ (b.Interval interval).symbol = b.symbol ∧
      (b.Interval interval).indicator = b.indicator ∧
      (b.Interval interval).params = b.params) ∧
    ((b.Indicator indicator).indicator = indicator.token ∧
      (b.Indicator indicator).exchange = b.exchange ∧
      (b.Indicator indicator).symbol = b.symbol ∧
      (b.Indicator indicator).interval = b.interval ∧
      (b.Indicator indicator).params = b.params) ∧
    ((b.WithParam key value).exchange = b.exchange ∧
      (b.WithParam key value).symbol = b.symbol ∧
      (b.WithParam key value).interval = b.interval ∧
      (b.WithParam key value).indicator = b.indicator ∧
      ∀ k, (b.WithParam key value).params.get k
        = if k = key then some value else b.params.get k) ∧
    ((b.WithParams params).exchange = b.exchange ∧
      (b.WithParams params).symbol = b.symbol ∧
      (b.WithParams params).interval = b.interval ∧
      (b.WithParams params).indicator = b.indicator ∧
      ∀ k, (b.WithParams params).params.get k = (params.get k).or (b.params.get k)) ∧
    (((DirectBuilder.WithParam {} key value).params.get key = some value) ∧
      ∀ k v, params.get k = some v → (DirectBuilder.WithParams {} params).params.get k = some v) ∧
    ((calls.foldl DirectBuilder.call b).exchange
        = ((calls.filterMap DirectCall.exchangeArg).getLast?).getD b.exchange ∧
      (calls.foldl DirectBuilder.call b).symbol
        = ((calls.filterMap DirectCall.symbolArg).getLast?).getD b.symbol ∧
      (calls.foldl DirectBuilder.call b).interval
        = ((calls.filterMap DirectCall.intervalArg).getLast?).getD b.interval ∧
      (calls.foldl DirectBuilder.call b).indicator
        = ((calls.filterMap DirectCall.indicatorArg).getLast?).getD b.indicator) := by
  obtain ⟨f1, f2, f3, f4⟩ := DirectBuilder.initParams_fields b
  have hWP : ∀ (b : DirectBuilder) k v, (b.WithParam k v).exchange = b.exchange ∧
      (b.WithParam k v).symbol = b.symbol ∧ (b.WithParam k v).interval = b.interval ∧
      (b.WithParam k v).indicator = b.indicator := fun b k v =>
    DirectBuilder.initParams_fields b
  have hWPs : ∀ (b : DirectBuilder) m, (b.WithParams m).exchange = b.exchange ∧
      (b.WithParams m).symbol = b.symbol ∧ (b.WithParams m).interval = b.interval ∧
      (b.WithParams m).indicator = b.indicator := fun b m =>
    DirectBuilder.initParams_fields b
  refine ⟨⟨rfl, rfl, rfl, rfl, rfl⟩, ⟨rfl, rfl, rfl, rfl, rfl⟩, ⟨rfl, rfl, rfl, rfl, rfl⟩,
    ⟨rfl, rfl, rfl, rfl, rfl⟩, ⟨f1, f2, f3, f4, ?_⟩, ⟨f1, f2, f3, f4, ?_⟩, ⟨?_, ?_⟩,
    ⟨?_, ?_, ?_, ?_⟩⟩
  · intro k
    show (b.initParams.params.set key value).get k = _
    rw [GoMap.get_set, DirectBuilder.initParams_get]
  · intro k
    show (b.initParams.params.merge params).get k = _
    rw [GoMap.get_merge, DirectBuilder.initParams_get]
  · show ((DirectBuilder.initParams {}).params.set key value).get key = _
    rw [GoMap.get_set]
    simp
  · intro k v hv
    show ((DirectBuilder.initParams {}).params.merge params).get k = _
    rw [GoMap.get_merge, hv]
    rfl
  · apply DirectBuilder.foldl_call_field DirectCall.exchangeArg (fun b => b.exchange)
    · intro b c x hx
      cases c <;> simp [DirectCall.exchangeArg] at hx
      subst hx
      rfl
    · intro b c hc
      cases c <;> simp [DirectCall.exchangeArg] at hc
      · rfl
      · rfl
      · rfl
      · exact (hWPs b _).1
      · exact (hWP b _ _).1
  · apply DirectBuilder.foldl_call_field DirectCall.symbolArg (fun b => b.symbol)
    · intro b c x hx
      cases c <;> simp [DirectCall.symbolArg] at hx
      subst hx
      rfl
    · intro b c hc
      cases c <;> simp [DirectCall.symbolArg] at hc
      · rfl
      · rfl
      · rfl
      · exact (hWPs b _).2.1
      · exact (hWP b _ _).2.1
  · apply DirectBuilder.foldl_call_field DirectCall.intervalArg (fun b => b.interval)
    · intro b c x hx
      cases c <;> simp [DirectCall.intervalArg] at hx
      subst hx
      rfl
    · intro b c hc
      cases c <;> simp [DirectCall.intervalArg] at hc
      · rfl
      · rfl
      · rfl
      · exact (hWPs b _).2.2.1
      · exact (hWP b _ _).2.2.1
  · apply DirectBuilder.foldl_call_field DirectCall.indicatorArg (fun b => b.indicator)
    · intro b c x hx
      cases c <;> simp [DirectCall.indicatorArg] at hx
      subst hx
      rfl
    · intro b c hc
      cases c <;> simp [DirectCall.indicatorArg] at hc
      · rfl
      · rfl
      · rfl
      · exact (hWPs b _).2.2.2
      · exact (hWP b _ _).2.2.2

/-- C26, as stated, fails: `IsAPIError` is true for an invalid-argument error
and for a network error. -/
theorem isAPIError_true_for_invalid_argument :
    IsAPIError (some (.taapi (InvalidArgumentError "exchange is required"))) = true ∧
    IsAPIError (some (.taapi (NetworkError "request failed" (.library "timeout")))) = true :=
  ⟨rfl, rfl⟩

/-- C26, amended: `IsAPIError(err)` is true exactly when `err` is a `*Error`,
which is the type of API errors, invalid-argument errors and network errors
alike; it is false for rate-limit errors, for errors of other types and for
the nil error, while `IsRateLimitError(err)` is true exactly for rate-limit
errors. -/
theorem isAPIError_is_type_test (err : Option GoError) :
    (IsAPIError err = true ↔ ∃ e, err = some (.taapi e)) ∧
    (IsRateLimitError err = true ↔ ∃ e, err = some (.rateLimit e)) ∧
    (∀ status message response,
      IsAPIError (some (.taapi (APIError status message response))) = true) ∧
    (∀ message, IsAPIError (some (.taapi (InvalidArgumentError message))) = true) ∧
    (∀ message cause, IsAPIError (some (.taapi (NetworkError message cause))) = true) ∧
    (∀ e, IsAPIError (some (.rateLimit e)) = false) ∧
    (∀ msg, IsAPIError (some (.other msg)) = false) ∧
    IsAPIError none = false ∧
    (∀ e, IsRateLimitError (some (.taapi e)) = false) := by
  refine ⟨?_, ?_, fun _ _ _ => rfl, fun _ => rfl, fun _ _ => rfl, fun _ => rfl,
    fun _ => rfl, rfl, fun _ => rfl⟩
  · cases err with
    | none => simp [IsAPIError]
    | some e => cases e <;> simp [IsAPIError]
  · cases err with
    | none => simp [IsRateLimitError]
    | some e => cases e <;> simp [IsRateLimitError]

/-- C27, as stated, fails: the entry appended by `AddIndicator(rsi, p)` for
the bag `p = {"indicator": "macd"}` has its `indicator` field equal to
"macd", not to the token "rsi". -/
theorem addIndicator_bag_overrides_indicator :
    ∃ entry, (ConstructBuilder.AddIndicator {} IndicatorRSI
        (GoMap.make.set "indicator" (.str "macd"))).indicators = [entry] ∧
      entry.get "indicator" = some (.str "macd") :=
  ⟨_, rfl, rfl⟩

/-- C27, amended: for every `ConstructBuilder`, indicator `ind` and parameter
bag `p`, `AddIndicator(ind, p)` appends exactly one entry at the end without
changing the earlier entries or the other fields; the entry holds every
key/value of `p`, no key besides those of `p` and `indicator`, and its
`indicator` field is `ind`'s token when `p` does not itself hold the key
`indicator`. -/
theorem addIndicator_entry (b : ConstructBuilder) (ind : Indicator) (p : GoMap) :
    ∃ entry, (b.AddIndicator ind p).indicators = b.indicators ++ [entry] ∧
      (b.AddIndicator ind p).exchange = b.exchange ∧
      (b.AddIndicator ind p).symbol = b.symbol ∧
      (b.AddIndicator ind p).interval = b.interval ∧
      (∀ k v, p.get k = some v → entry.get k = some v) ∧
      (p.get "indicator" = none → entry.get "indicator" = some (.str ind.token)) ∧
      (∀ k, k ≠ "indicator" → entry.get k = p.get k) := by
  have hget : ∀ k, (ConstructBuilder.indicatorData ind p).get k
      = (p.get k).or (if k = "indicator" then some (.str ind.token) else none) := by
    intro k
    unfold ConstructBuilder.indicatorData
    simp only [GoMap.get_merge, GoMap.get_set, GoMap.get_make, Indicator.String]
  refine ⟨ConstructBuilder.indicatorData ind p, rfl, rfl, rfl, rfl, ?_, ?_, ?_⟩
  · intro k v hv
    rw [hget, hv]
    rfl
  · intro h
    rw [hget, h]
    simp
  · intro k hk
    rw [hget]
    simp [hk]

/-! ## The secret of outbound requests -/

/-- C22 at the failing input: for the client with secret "test_secret" and
the direct builder with the bag `{"secret": "other"}`, the GET request that
`Get` sends has the `secret` query value "other" (here the server echoes the
value it received), not the client's secret.  In general the `secret` query
value of the request `doGet` builds is the printed bag entry `secret` when
the bag holds that key, and the client's secret only otherwise; `doPost`
assigns the secret after the payload is complete. -/
theorem get_secret_overridden_by_bag (lib : StdLib) (net : Network) (c : Client)
    (endpoint : String) (params : GoMap) :
    (∃ r, DirectBuilder.Get
        (Client.doGet
          { urlParse := fun s => .ok { location := s, query := [] },
            urlString := fun u => u.location,
            sprintOther := fun _ => "" }
          { urlError := fun _ => none,
            roundTrip := fun req => .ok
              { StatusCode := 200, Header := fun _ => "",
                Body := .ok (.text (.obj [("received", .str (req.Query.Get "secret"))])) } }
          { apiSecret := "test_secret", baseURL := "https://api.taapi.io" })
        { exchange := "binance", symbol := "BTC/USDT", interval := "1h", indicator := "rsi",
          params := GoMap.make.set "secret" (.str "other") }
        = .ok r ∧
      r.Data.get "received" = some (.str "other")) ∧
    (∀ req, c.getRequest lib net endpoint params = .ok req →
      req.Query.Get "secret"
        = match params.get "secret" with
          | some v => sprintV lib v
          | none => c.apiSecret) ∧
    (∀ req, c.getRequest lib net endpoint params = .ok req →
      params.get "secret" = none → req.Query.Get "secret" = c.apiSecret) := by
  refine ⟨⟨_, rfl, rfl⟩, ?_, ?_⟩
  · intro req h
    exact Client.getRequest_secret lib net c endpoint params req h
  · intro req h hnone
    rw [Client.getRequest_secret lib net c endpoint params req h, hnone]

/-- C23: For every client, network, endpoint and payload passed to `doPost`
(also a payload that already holds a key `secret`), the request that `doPost`
sends, when it sends one, is a POST whose JSON body has the `secret` field
equal to the client's API secret and every other field of the payload; so it
is for the payload `ManualBuilder.Execute` builds from a parameter bag that
holds a key `secret`, and for the payload of `BulkBuilder.Execute`. -/
theorem post_secret_is_clients (net : Network) (c : Client) (endpoint : String)
    (payload : GoMap) (m : ManualBuilder) (b : BulkBuilder) :
    (c.doPost net endpoint payload
      = match c.postRequest net endpoint payload with
        | .error err => .error err
        | .ok req =>
          match net.roundTrip req with
          | .error err => .error (.taapi (NetworkError "request failed" err))
          | .ok resp => c.handleResponse resp (endpoint == "/bulk")) ∧
    (∀ req, c.postRequest net endpoint payload = .ok req →
      ∃ body, req.Body = some body ∧ req.Method = "POST" ∧
        body.field "secret" = some (.str c.apiSecret) ∧
        ∀ k, k ≠ "secret" → body.field k = payload.get k) ∧
    (m.candles ≠ [] →
      ∃ p, m.Execute (c.doPost net)
          = (match c.doPost net "/manual" p with
            | .error err => .error err
            | .ok (.indicator r) => .ok r
            | .ok (.bulk _) => .error (.other "unexpected response type")) ∧
        (∀ k v, m.params.get k = some v → p.get k = some v) ∧
        ∀ req, c.postRequest net "/manual" p = .ok req →
          ∃ body, req.Body = some body ∧ body.field "secret" = some (.str c.apiSecret)) ∧
    (b.constructs ≠ [] →
      ∃ p, b.Execute (c.doPost net)
          = (match c.doPost net "/bulk" p with
            | .error err => .error err
            | .ok (.bulk r) => .ok r
            | .ok (.indicator _) => .error (.other "unexpected response type")) ∧
        ∀ req, c.postRequest net "/bulk" p = .ok req →
          ∃ body, req.Body = some body ∧ body.field "secret" = some (.str c.apiSecret)) ∧
    (∃ req body, Client.postRequest
        { urlError := fun _ => none, roundTrip := fun _ => .error (.library "offline") }
        { apiSecret := "test_secret", baseURL := "https://api.taapi.io" } "/manual"
        ((GoMap.make.set "indicator" (.str "ema")).set "secret" (.str "other")) = .ok req ∧
      req.Body = some body ∧ body.field "secret" = some (.str "test_secret")) := by
  have hsecret : ∀ (ep : String) (p : GoMap) req, c.postRequest net ep p = .ok req →
      ∃ body, req.Body = some body ∧ body.field "secret" = some (.str c.apiSecret) := by
    intro ep p req h
    obtain ⟨body, hb, _, hf⟩ := Client.postRequest_body net c ep p req h
    exact ⟨body, hb, by rw [hf]; simp⟩
  refine ⟨Client.doPost_eq net c endpoint payload, ?_, ?_, ?_, ⟨_, _, rfl, rfl, rfl⟩⟩
  · intro req h
    obtain ⟨body, hb, hm, hf⟩ := Client.postRequest_body net c endpoint payload req h
    refine ⟨body, hb, hm, by rw [hf]; simp, ?_⟩
    intro k hk
    rw [hf]
    simp [hk]
  · intro hne
    have hlen : ¬ m.candles.length = 0 := fun h0 => hne (List.length_eq_zero.1 h0)
    refine ⟨((GoMap.make.set "indicator" (.str m.indicator)).set "candles"
      (.arr (m.candles.map JSON.arr))).merge m.params, ?_, ?_, hsecret _ _⟩
    · simp only [ManualBuilder.Execute, hlen, if_false]
      cases c.doPost net "/manual" _ with
      | error err => rfl
      | ok result => cases result <;> rfl
    · intro k v hv
      rw [GoMap.get_merge, hv]
      rfl
  · intro hne
    have hlen : ¬ b.constructs.length = 0 := fun h0 => hne (List.length_eq_zero.1 h0)
    refine ⟨GoMap.make.set "construct" (.arr (b.constructs.map GoMap.toJSON)), ?_,
      hsecret _ _⟩
    simp only [BulkBuilder.Execute, hlen, if_false]
    cases c.doPost net "/bulk" _ with
    | error err => rfl
    | ok result => cases result <;> rfl

/-! ## Response types per endpoint -/

/-- On success, response handling returns a bulk response when `isBulk` is
set and an indicator response when it is not. -/
theorem Client.handleResponse_ok_kind (c : Client) (resp : HttpResponse) (isBulk : Bool)
    (result : Result) (h : c.handleResponse resp isBulk = .ok result) :
    (isBulk = true ∧ ∃ b, result = .bulk b) ∨ (isBulk = false ∧ ∃ r, result = .indicator r) := by
  unfold Client.handleResponse at h
  split at h
  · simp at h
  · simp only at h
    split at h
    · simp at h
    · split at h
      · simp at h
      · cases isBulk with
        | true =>
          simp only [if_true] at h
          split at h
          · simp at h
          · simp only [Except.ok.injEq] at h
            exact Or.inl ⟨rfl, _, h.symm⟩
        | false =>
          simp only [Bool.false_eq_true, if_false] at h
          split at h
          · simp at h
          · simp only [Except.ok.injEq] at h
            exact Or.inr ⟨rfl, _, h.symm⟩

/-- On success, `doPost` returns a bulk response for the endpoint "/bulk" and
an indicator response for every other endpoint. -/
theorem Client.doPost_ok_kind (net : Network) (c : Client) (endpoint : String)
    (payload : GoMap) (result : Result) (h : c.doPost net endpoint payload = .ok result) :
    (endpoint = "/bulk" ∧ ∃ b, result = .bulk b) ∨
      (endpoint ≠ "/bulk" ∧ ∃ r, result = .indicator r) := by
  rw [Client.doPost_eq] at h
  split at h
  · simp at h
  · split at h
    · simp at h
    · rcases Client.handleResponse_ok_kind c _ _ result h with ⟨hb, hr⟩ | ⟨hb, hr⟩
      · exact Or.inl ⟨by simpa using hb, hr⟩
      · exact Or.inr ⟨by simpa using hb, hr⟩

/-- No error of response handling is of a type other than `*Error` and
`*RateLimitError`. -/
theorem Client.handleResponse_ne_other (c : Client) (resp : HttpResponse) (isBulk : Bool)
    (msg : String) : c.handleResponse resp isBulk ≠ .error (.other msg) := by
  intro h
  unfold Client.handleResponse at h
  split at h
  · simp at h
  · simp only at h
    split at h
    · simp at h
    · split at h
      · simp at h
      · split at h
        · split at h <;> simp at h
        · split at h <;> simp at h

/-- No error of `doPost` is of a type other than `*Error` and
`*RateLimitError`. -/
theorem Client.doPost_ne_other (net : Network) (c : Client) (endpoint : String)
    (payload : GoMap) (msg : String) :
    c.doPost net endpoint payload ≠ .error (.other msg) := by
  intro h
  unfold Client.doPost at h
  simp only at h
  split at h
  · simp at h
  · split at h
    · simp at h
    · split at h
      · simp at h
      · exact Client.handleResponse_ne_other c _ _ msg h

/-- Every error `getRequest` returns is a `*Error` that wraps a cause. -/
theorem Client.getRequest_error (lib : StdLib) (net : Network) (c : Client)
    (endpoint : String) (params : GoMap) (err : GoError)
    (h : c.getRequest lib net endpoint params = .error err) :
    ∃ e, err = .taapi e ∧ e.Err ≠ none := by
  unfold Client.getRequest at h
  simp only at h
  split at h
  · simp only [Except.error.injEq] at h
    exact ⟨_, h.symm, by simp [NetworkError]⟩
  · split at h
    · simp only [Except.error.injEq] at h
      exact ⟨_, h.symm, by simp [NetworkError]⟩
    · simp at h

/-- C31: Response handling returns, on success, a `BulkResponse` exactly when
it is called with the bulk flag, which `doPost` sets exactly for the endpoint
"/bulk" and the GET path never sets, and an `IndicatorResponse` otherwise; so
for every client and network the "unexpected response type" errors of
`BulkBuilder.Execute`, `ManualBuilder.Execute` and `doGet` are never
returned. -/
theorem unexpected_response_type_unreachable (lib : StdLib) (net : Network) (c : Client)
    (resp : HttpResponse) (isBulk : Bool) (endpoint : String) (payload : GoMap)
    (b : BulkBuilder) (m : ManualBuilder) :
    (∀ result, c.handleResponse resp isBulk = .ok result →
      (isBulk = true ∧ ∃ r, result = .bulk r) ∨
        (isBulk = false ∧ ∃ r, result = .indicator r)) ∧
    (∀ result, c.doPost net endpoint payload = .ok result →
      (endpoint = "/bulk" ∧ ∃ r, result = .bulk r) ∨
        (endpoint ≠ "/bulk" ∧ ∃ r, result = .indicator r)) ∧
    (b.Execute (c.doPost net) ≠ .error (.other "unexpected response type")) ∧
    (m.Execute (c.doPost net) ≠ .error (.other "unexpected response type")) ∧
    (c.doGet lib net endpoint payload
      ≠ .error (.taapi (APIError 0 "unexpected response type" .nil))) := by
  refine ⟨fun result h => Client.handleResponse_ok_kind c resp isBulk result h,
    fun result h => Client.doPost_ok_kind net c endpoint payload result h, ?_, ?_, ?_⟩
  · intro h
    unfold BulkBuilder.Execute at h
    split at h
    · simp [InvalidArgumentError] at h
    · simp only at h
      split at h
      · rename_i err herr
        simp only [Except.error.injEq] at h
        rw [h] at herr
        exact Client.doPost_ne_other net c _ _ _ herr
      · rename_i result hres
        rcases Client.doPost_ok_kind net c _ _ result hres with ⟨_, r, hr⟩ | ⟨hne, _⟩
        · subst hr
          simp at h
        · exact hne rfl
  · intro h
    unfold ManualBuilder.Execute at h
    split at h
    · simp [InvalidArgumentError] at h
    · simp only at h
      split at h
      · rename_i err herr
        simp only [Except.error.injEq] at h
        rw [h] at herr
        exact Client.doPost_ne_other net c _ _ _ herr
      · rename_i result hres
        rcases Client.doPost_ok_kind net c _ _ result hres with ⟨heq, _⟩ | ⟨_, r, hr⟩
        · exact absurd heq (by decide)
        · subst hr
          simp at h
  · intro h
    unfold Client.doGet at h
    cases hreq : c.getRequest lib net endpoint payload with
    | error err =>
      rw [hreq] at h
      simp only [Except.error.injEq] at h
      obtain ⟨e, he, hcause⟩ := Client.getRequest_error lib net c endpoint payload err hreq
      rw [h] at he
      simp only [GoError.taapi.injEq] at he
      exact hcause (he ▸ rfl)
    | ok req =>
      rw [hreq] at h
      simp only at h
      cases hrt : net.roundTrip req with
      | error err =>
        rw [hrt] at h
        simp [NetworkError, APIError] at h
      | ok resp' =>
        rw [hrt] at h
        simp only at h
        cases hh : c.handleResponse resp' false with
        | error err =>
          rw [hh] at h
          simp only [Except.error.injEq] at h
          rw [h] at hh
          rcases Client.handleResponse_error c resp' false _ hh with h1 | h1 | h1 | h1
          · exact h1 rfl
          · simp [APIError] at h1
          · simp [APIError] at h1
          · simp [APIError] at h1
        | ok result =>
          rw [hh] at h
          rcases Client.handleResponse_ok_kind c resp' false result hh with
            ⟨hb, _⟩ | ⟨_, r, hr⟩
          · simp at hb
          · subst hr
            simp at h

end Taapi
